import Mathlib

/-! openMVG trifocal sample: `Trifocal3PointPositionTangentialSolver`

A shallow embedding of `src/openMVG_Samples/multiview_trifocal/trifocal.cpp`
(`Solve` and `Error`), of `tt2qt` of `trifocal_test.cpp` and of
`Features_Provider::getFeatures` of `sfm_features_provider.hpp`, together with
the properties of the repository specification that concern them.

Conventions of the embedding.

* Scalars (`double`) are an arbitrary type `α`; `Solve` only moves values and
  needs `0` and `1`, `Error` computes in exact arithmetic over a linear
  ordered field.
* Fixed-size Eigen matrices are `Matrix (Fin r) (Fin c) α`; the dynamic
  `Mat` carries its run-time shape and its element access is fallible.
* Automatic arrays that the C++ code leaves uninitialised start from
  arbitrary contents supplied by a `Solve.Stack`.
* The external solver `MiNuS::minus<chicago>::solve` is an oracle: the
  attempt number selects one arbitrary behaviour per invocation, which may
  overwrite the output buffers whether it succeeds or not.
* `TriangulateDLT` and `apply_intrinsics`, which `Error` calls and whose code
  is elsewhere, are parameters of `Error`.
-/

namespace trifocal3pt

/-! ## Data model -/

/-- Eigen `Mat` (`Eigen::MatrixXd`): a dense matrix whose shape is only known
at run time. -/
structure Mat (α : Type) where
  /-- number of rows -/
  rows : Nat
  /-- number of columns -/
  cols : Nat
  /-- the coefficients -/
  coeff : Fin rows → Fin cols → α

/-- Modelled from the spec: Eigen's element access `m(r, c)`, whose
implementation is not part of the sources at hand. An index outside the shape
is the asserted failure / undefined behaviour of section 4.1 and yields
`none`. -/
def Mat.get {α : Type} (m : Mat α) (r c : Nat) : Option α :=
  if h : r < m.rows ∧ c < m.cols then some (m.coeff ⟨r, h.1⟩ ⟨c, h.2⟩) else none

/-- A fixed-size matrix seen as a dynamic `Mat`. -/
def Mat.ofMatrix {α : Type} {r c : Nat} (M : Matrix (Fin r) (Fin c) α) : Mat α :=
  ⟨r, c, M⟩

/-- Eigen `Mat34`: a 3x4 camera matrix. -/
abbrev Mat34 (α : Type) := Matrix (Fin 3) (Fin 4) α

/-- Eigen `Mat34::Identity()`: ones on the main diagonal, zeros elsewhere. -/
def Mat34.Identity {α : Type} [Zero α] [One α] : Mat34 α :=
  fun r c => if r.val = c.val then 1 else 0

/-- Assignment `m(r, c) = x` to one coefficient of a camera matrix. -/
def Mat34.set {α : Type} (m : Mat34 α) (r : Fin 3) (c : Fin 4) (x : α) : Mat34 α :=
  fun i j => if i = r ∧ j = c then x else m i j

/-- The model type `trifocal_model_t` (`std::array<Mat34, 3>`): one camera per
view. -/
abbrev trifocal_model_t (α : Type) := Fin 3 → Mat34 α

/-- Assignment `tt[v] = m` to one camera of a model. -/
def trifocal_model_t.set {α : Type} (tt : trifocal_model_t α) (v : Fin 3) (m : Mat34 α) :
    trifocal_model_t α :=
  fun w => if w = v then m else tt w

/-- Modelled from the spec: `io::pp::nviews`, the number of views (3); the
header that declares it is not part of the sources at hand. -/
abbrev io.pp.nviews : Nat := 3

/-- Modelled from the spec: `io::pp::npoints`, the number of point
correspondences (3). -/
abbrev io.pp.npoints : Nat := 3

/-- Modelled from the spec: `io::ncoords2d`, the number of coordinates of a 2D
point (2). -/
abbrev io.ncoords2d : Nat := 2

/-- The retry budget `max_solve_tries` of `trifocal.cpp`. -/
def max_solve_tries : Nat := 5

/-- The solver's input arrays `double [nviews][npoints][ncoords2d]`. -/
abbrev PointArray (α : Type) := Fin io.pp.nviews → Fin io.pp.npoints → Fin io.ncoords2d → α

/-- Assignment `a[v][ip][k] = x`. -/
def PointArray.set {α : Type} (a : PointArray α) (v : Fin io.pp.nviews)
    (ip : Fin io.pp.npoints) (k : Fin io.ncoords2d) (x : α) : PointArray α :=
  fun v' ip' k' => if v' = v ∧ ip' = ip ∧ k' = k then x else a v' ip' k'

/-- The output buffers the external solver writes through its pointer
arguments: `cameras[M::nsols][nviews-1][4][3]`, `id_sols[M::nsols]` and
`nsols_final`. Solution slots are addressed by natural numbers: the capacity
`M::nsols` belongs to the absent solver library and `Solve` never compares
against it. -/
structure SolverOut (α : Type) where
  /-- relative cameras: rows 0..2 rotation rows, row 3 translation -/
  cameras : Nat → Fin (io.pp.nviews - 1) → Fin 4 → Fin 3 → α
  /-- the slots that hold valid solutions -/
  id_sols : Nat → Nat
  /-- the number of valid solutions -/
  nsols_final : Nat

/-- The external solver `MiNuS::minus<chicago>::solve(p, tgt, cameras, id_sols,
&nsols_final)`: consumed as a black box. It is nondeterministic, so the
behaviour of an invocation may depend on how many invocations preceded it
(first argument); it reads the packed points and tangents, may overwrite the
output buffers, and reports success. -/
abbrev minus_solve (α : Type) :=
  Nat → PointArray α → PointArray α → SolverOut α → Bool × SolverOut α

/-- One invocation of the external solver as `Solve` performs it: the attempt
number and the arrays passed. -/
structure Invocation (α : Type) where
  /-- loop counter `i` of the retry loop -/
  attempt : Nat
  /-- the position array passed -/
  p : PointArray α
  /-- the tangent array passed -/
  tgt : PointArray α

/-- Arbitrary initial contents of the automatic arrays of `Solve` (which are
not initialised by the C++ code) and of the elements `resize` appends. -/
structure Solve.Stack (α : Type) where
  /-- `double p[nviews][npoints][ncoords2d]` -/
  p : PointArray α
  /-- `double tgt[nviews][npoints][ncoords2d]` -/
  tgt : PointArray α
  /-- `double cameras[M::nsols][nviews-1][4][3]` -/
  cameras : Nat → Fin (io.pp.nviews - 1) → Fin 4 → Fin 3 → α
  /-- `unsigned id_sols[M::nsols]` -/
  id_sols : Nat → Nat
  /-- contents of a model that `resize` appends -/
  fresh : trifocal_model_t α

/-- What one call of `Solve` does: the vector it leaves in `*trifocal_tensor`
(the only thing the caller receives from the `void` function), the solver
invocations it made, and the lines it wrote to `std::cerr`. -/
structure Solve.Run (α : Type) where
  /-- contents of `*trifocal_tensor` on return -/
  trifocal_tensor : List (trifocal_model_t α)
  /-- the invocations of the external solver, in order -/
  calls : List (Invocation α)
  /-- the lines written to `std::cerr` -/
  cerr : List String

/-! ## `Solve` -/

/-- Body of the packing loop of `Solve` (lines 61-76) for one point `ip`. -/
def Solve.pack_point {α : Type} (datum_0 datum_1 datum_2 : Mat α) (ip : Fin io.pp.npoints)
    (st : PointArray α × PointArray α) : Option (PointArray α × PointArray α) := do
  let p := st.1
  let tgt := st.2
  let p := p.set 0 ip 0 (← datum_0.get 0 ip)
  let p := p.set 0 ip 1 (← datum_0.get 1 ip)
  let tgt := tgt.set 0 ip 0 (← datum_0.get 2 ip)
  let tgt := tgt.set 0 ip 1 (← datum_0.get 3 ip)
  let p := p.set 1 ip 0 (← datum_1.get 0 ip)
  let p := p.set 1 ip 1 (← datum_1.get 1 ip)
  let tgt := tgt.set 1 ip 0 (← datum_1.get 2 ip)
  let tgt := tgt.set 1 ip 1 (← datum_1.get 3 ip)
  let p := p.set 2 ip 0 (← datum_2.get 0 ip)
  let p := p.set 2 ip 1 (← datum_2.get 1 ip)
  let tgt := tgt.set 2 ip 0 (← datum_2.get 2 ip)
  let tgt := tgt.set 2 ip 1 (← datum_2.get 3 ip)
  return (p, tgt)

/-- The packing loop `for (ip = 0; ip < npoints; ++ip)` of `Solve`. -/
def Solve.pack {α : Type} (datum_0 datum_1 datum_2 : Mat α) (p tgt : PointArray α) :
    Option (PointArray α × PointArray α) :=
  (List.finRange io.pp.npoints).foldlM
    (fun st ip => Solve.pack_point datum_0 datum_1 datum_2 ip st) (p, tgt)

/-- The line `Solve` writes to `std::cerr` after a failed attempt. -/
def Solve.failure_message : String :=
  "Minus failed once to compute tracks, perhaps retry\n"

/-- The retry loop `for (i = 0; i < max_solve_tries; ++i)` of `Solve` (lines
81-85), with `tries` iterations left and loop counter `i`: the buffers after
the loop, the invocations made and the lines logged. -/
def Solve.retry {α : Type} (solve : minus_solve α) (p tgt : PointArray α) :
    Nat → Nat → SolverOut α → SolverOut α × List (Invocation α) × List String
  | 0, _, out => (out, [], [])
  | tries + 1, i, out =>
    let r := solve i p tgt out
    if r.1 then (r.2, [⟨i, p, tgt⟩], [])
    else
      let rest := Solve.retry solve p tgt tries (i + 1) r.2
      (rest.1, ⟨i, p, tgt⟩ :: rest.2.1, Solve.failure_message :: rest.2.2)

/-- The resize `tt.resize(n)` of a `std::vector`: keeps the first `n` elements
and appends new ones up to size `n`. -/
def Solve.resize {α : Type} (tt : List (trifocal_model_t α)) (n : Nat)
    (fresh : trifocal_model_t α) : List (trifocal_model_t α) :=
  tt.take n ++ List.replicate (n - tt.length) fresh

/-- The index `v-1` of a view `v` in the solver's array of relative cameras. -/
def Solve.rel (v : Fin io.pp.nviews) : Fin (io.pp.nviews - 1) :=
  ⟨v.val - 1, by have h : v.val < 3 := v.isLt; show v.val - 1 < 2; omega⟩

/-- Body of the loop over views `v = 1 .. nviews-1` of `Solve` (lines 95-100)
for solution `s`: the writes to `tt[s][v]`. -/
def Solve.convert_view {α : Type} (out : SolverOut α) (s : Nat) (v : Fin io.pp.nviews)
    (m : Mat34 α) : Mat34 α :=
  let m := (List.finRange 3).foldl (fun m ir =>
    (List.finRange 3).foldl (fun m ic =>
      m.set ir ic.castSucc (out.cameras (out.id_sols s) (Solve.rel v) ir.castSucc ic)) m) m
  (List.finRange 3).foldl (fun m r =>
    m.set r 3 (out.cameras (out.id_sols s) (Solve.rel v) 3 r)) m

/-- Body of the loop over solutions `s` of `Solve` (lines 93-101): the writes
to `tt[s]`. -/
def Solve.convert {α : Type} [Zero α] [One α] (out : SolverOut α) (s : Nat)
    (tts : trifocal_model_t α) : trifocal_model_t α :=
  let tts := tts.set 0 Mat34.Identity
  ((List.finRange io.pp.nviews).drop 1).foldl (fun tts v =>
    tts.set v (Solve.convert_view out s v (tts v))) tts

/-- The conversion loop `for (s = 0; s < nsols_final; ++s)` of `Solve`. -/
def Solve.unpack {α : Type} [Zero α] [One α] (out : SolverOut α)
    (tt : List (trifocal_model_t α)) : List (trifocal_model_t α) :=
  (List.range out.nsols_final).foldl (fun tt s => tt.modify (Solve.convert out s) s) tt

/-- The method `Trifocal3PointPositionTangentialSolver::Solve`. The result is
`none` when an element access of the packing loop is out of range: the
behaviour of the call is then not defined (asserted failure or undefined
behaviour) and nothing is stated about it. -/
def Solve {α : Type} [Zero α] [One α] (solve : minus_solve α) (stack : Solve.Stack α)
    (datum_0 datum_1 datum_2 : Mat α) (trifocal_tensor : List (trifocal_model_t α)) :
    Option (Solve.Run α) := do
  let packed ← Solve.pack datum_0 datum_1 datum_2 stack.p stack.tgt
  let looped := Solve.retry solve packed.1 packed.2 max_solve_tries 0
    ⟨stack.cameras, stack.id_sols, 0⟩
  let out := looped.1
  let tt := Solve.resize trifocal_tensor out.nsols_final stack.fresh
  return ⟨Solve.unpack out tt, looped.2.1, looped.2.2⟩

/-- Closed form of the camera `Solve` writes for view `v >= 1` of solution `s`:
columns 0..2 take rows 0..2 of the solver block entry by entry, column 3 takes
row 3 of the block. -/
def Solve.camera {α : Type} (out : SolverOut α) (s : Nat) (v : Fin io.pp.nviews) : Mat34 α :=
  fun r c =>
    if h : c.val < 3 then out.cameras (out.id_sols s) (Solve.rel v) r.castSucc ⟨c.val, h⟩
    else out.cameras (out.id_sols s) (Solve.rel v) 3 r

/-- Closed form of the model `Solve` writes for solution `s`. -/
def Solve.model {α : Type} [Zero α] [One α] (out : SolverOut α) (s : Nat) :
    trifocal_model_t α :=
  fun v => if v = 0 then Mat34.Identity else Solve.camera out s v

/-- The output buffers after `j` invocations of the solver in a row, starting
from the buffers `out`. -/
def Solve.buffers_after {α : Type} (solve : minus_solve α) (p tgt : PointArray α)
    (out : SolverOut α) : Nat → SolverOut α
  | 0 => out
  | j + 1 => (solve j p tgt (Solve.buffers_after solve p tgt out j)).2

/-- Whether invocation number `j` (counted from 0) reports success. -/
def Solve.succeeds {α : Type} (solve : minus_solve α) (p tgt : PointArray α)
    (out : SolverOut α) (j : Nat) : Bool :=
  (solve j p tgt (Solve.buffers_after solve p tgt out j)).1

/-- The number of invocations the retry policy allows for a sequence of
outcomes `ok`: the position of the first success among the first `tries`
attempts, and `tries` when there is none. -/
def Solve.invocations (ok : Nat → Bool) (tries : Nat) : Nat :=
  match (List.range tries).find? ok with
  | some j => j + 1
  | none => tries

/-- The matrices whose rows 0..3 and columns 0..2 exist: those the packing
loop of `Solve` can read. -/
def Solve.readable {α : Type} (datum : Mat α) : Prop :=
  4 ≤ datum.rows ∧ 3 ≤ datum.cols

/-- The buffers the first invocation of the solver receives: the uninitialised
arrays and `nsols_final = 0`. -/
def Solve.initial {α : Type} (stack : Solve.Stack α) : SolverOut α :=
  ⟨stack.cameras, stack.id_sols, 0⟩

/-- The vector of models the conversion loop of `Solve` builds from the
buffers `out`. -/
def Solve.models {α : Type} [Zero α] [One α] (out : SolverOut α) :
    List (trifocal_model_t α) :=
  (List.range out.nsols_final).map (Solve.model out)

/-! ## `Error` -/

/-- Eigen `Vec` (`Eigen::VectorXd`): a vector whose size is only known at run
time. A bearing holds x, y, tangent-x, tangent-y. -/
abbrev Vec (α : Type) := List α

/-- Eigen `Vec2`. -/
abbrev Vec2 (α : Type) := Fin 2 → α

/-- Eigen `Vec3`. -/
abbrev Vec3 (α : Type) := Fin 3 → α

/-- Eigen `Vec4`. -/
abbrev Vec4 (α : Type) := Fin 4 → α

/-- Eigen `Mat3`. -/
abbrev Mat3 (α : Type) := Matrix (Fin 3) (Fin 3) α

/-- Modelled from the spec: Eigen's `v.head(2)` on a dynamic vector, the
first two coefficients; a vector with fewer than two coefficients is an
asserted failure and yields `none`. -/
def Vec.head2 {α : Type} : Vec α → Option (Vec2 α)
  | x :: y :: _ => some ![x, y]
  | _ => none

/-- Modelled from the spec: Eigen's `v.head(2)` on a `Vec3`. -/
def Vec3.head2 {α : Type} (v : Vec3 α) : Vec2 α :=
  ![v 0, v 1]

/-- Modelled from the spec: Eigen's `v.homogeneous()`, which appends a 1. -/
def Vec2.homogeneous {α : Type} [One α] (v : Vec2 α) : Vec3 α :=
  ![v 0, v 1, 1]

/-- Modelled from the spec: Eigen's `v.hnormalized()`, the first two
coefficients divided by the third. The quotient is undefined for a zero third
coefficient, which yields `none`. -/
def Vec3.hnormalized {α : Type} [Field α] [DecidableEq α] (v : Vec3 α) : Option (Vec2 α) :=
  if v 2 = 0 then none else some ![v 0 / v 2, v 1 / v 2]

/-- Modelled from the spec: Eigen's `v.squaredNorm()`, the sum of the squares
of the coefficients. -/
def squaredNorm {α : Type} [Field α] {n : Nat} (v : Fin n → α) : α :=
  Matrix.dotProduct v v

/-- Modelled from the spec: Eigen's `m.col(j)`. -/
def col {α : Type} {m n : Nat} (M : Matrix (Fin m) (Fin n) α) (j : Fin n) : Fin m → α :=
  fun i => M i j

/-- The matrix `bearing` of `Error` once the three heads are taken (lines
130-133): column `v` is `(x, y, 1)` of view `v`. -/
def Error.bearing_matrix {α : Type} [One α] (c0 c1 c2 : Vec2 α) : Mat3 α :=
  Matrix.of fun r c => (![c0.homogeneous, c1.homogeneous, c2.homogeneous] c) r

/-- Lines 130-133 of `Error`: the 3x3 matrix whose columns are the homogeneous
bearings. -/
def Error.bearing {α : Type} [One α] (bearing_0 bearing_1 bearing_2 : Vec α) :
    Option (Mat3 α) := do
  let c0 ← bearing_0.head2
  let c1 ← bearing_1.head2
  let c2 ← bearing_2.head2
  return Error.bearing_matrix c0 c1 c2

/-- The type of `TriangulateDLT(P1, x1, P2, x2, &X)` of
`openMVG/multiview/triangulation.hpp`, which is not among the sources at hand
and is taken as a parameter: from two cameras and two homogeneous bearings it
produces a homogeneous 3D point. -/
abbrev TriangulateDLT_t (α : Type) := Mat34 α → Vec3 α → Mat34 α → Vec3 α → Vec4 α

/-- The type of `apply_intrinsics` of `trifocal-util.h`, which is not among the
sources at hand and is taken as a parameter. `Error` calls it as
`apply_intrinsics(K, p_reprojected_pix.data(), p_reprojected.data())`; as in
section 4.3 of the specification it computes the pixel coordinates (first
pointer) from the intrinsics and the normalised coordinates (second pointer),
which it leaves unchanged. -/
abbrev apply_intrinsics_t (α : Type) := (Fin 2 → Fin 3 → α) → Vec2 α → Vec2 α

/-- Lines 136-146 of `Error`: the choice of the pair of views to triangulate
from; the result is `(triangulated_homg, third_view)`. -/
def Error.triangulate {α : Type} [LinearOrderedField α] (TriangulateDLT : TriangulateDLT_t α)
    (tt : trifocal_model_t α) (bearing : Mat3 α) : Vec4 α × Fin 3 :=
  if squaredNorm (col (tt 1) 3) > squaredNorm (col (tt 2) 3) then
    (TriangulateDLT (tt 0) (col bearing 0) (tt 1) (col bearing 1), 2)
  else
    (TriangulateDLT (tt 0) (col bearing 0) (tt 2) (col bearing 2), 1)

/-- The product `tt[third_view]*triangulated_homg` of line 152, the projection
of the triangulated point into the scored view before dehomogenisation. -/
def Error.projection {α : Type} [LinearOrderedField α] (TriangulateDLT : TriangulateDLT_t α)
    (tt : trifocal_model_t α) (bearing : Mat3 α) : Vec3 α :=
  let chosen := Error.triangulate TriangulateDLT tt bearing
  let triangulated_homg := chosen.1
  let third_view := chosen.2
  (tt third_view).mulVec triangulated_homg

set_option linter.unusedVariables false in
/-- The method `Trifocal3PointPositionTangentialSolver::Error`, in exact
arithmetic. The result is `none` when a bearing has fewer than two
coefficients or the projection cannot be dehomogenised. -/
def Error {α : Type} [LinearOrderedField α] (TriangulateDLT : TriangulateDLT_t α)
    (apply_intrinsics : apply_intrinsics_t α) (tt : trifocal_model_t α)
    (bearing_0 bearing_1 bearing_2 pxbearing_0 pxbearing_1 pxbearing_2 : Vec α)
    (K : Fin 2 → Fin 3 → α) : Option α := do
  let bearing ← Error.bearing bearing_0 bearing_1 bearing_2
  let chosen := Error.triangulate TriangulateDLT tt bearing
  let triangulated_homg := chosen.1
  let third_view := chosen.2
  let p_reprojected ← Vec3.hnormalized ((tt third_view).mulVec triangulated_homg)
  let p_reprojected_pix := apply_intrinsics K p_reprojected
  return squaredNorm (p_reprojected - Vec3.head2 (col bearing third_view))

/-! ## `tt2qt` (trifocal_test.cpp) -/

/-- Modelled from the spec: the scalars behind `m.transpose().data()` for a
camera matrix `m`. Eigen's transpose expression shares the storage of `m`, and
the camera matrices are stored column-major: scalar `k` is `m(k mod 3, k div
3)`. -/
def Mat34.transpose_data {α : Type} (m : Mat34 α) : Fin 12 → α :=
  fun k => m ⟨k.val % 3, Nat.mod_lt _ (by decide)⟩
    ⟨k.val / 3, by have h := k.isLt; omega⟩

/-- The type of `util::rotm2quat(rr, qq)` of the solver library, which is not
among the sources at hand and is taken as a parameter: it reads the 9 scalars
of a 3x3 rotation matrix at `rr`, in the solver's row-major convention, and
writes the 4 scalars of a quaternion at `qq`. -/
abbrev rotm2quat_t (α : Type) := (Fin 9 → α) → Fin 4 → α

/-- The first 9 scalars at a pointer to 12. -/
def first9 {α : Type} (data : Fin 12 → α) : Fin 9 → α :=
  fun k => data (Fin.castLE (by decide) k)

/-- The writes `qq[0..3]` of a call `rotm2quat(rr, tt_qt + offset)` on the
memory at `tt_qt`. -/
def write_quat {α : Type} (tt_qt : Nat → α) (offset : Nat) (qq : Fin 4 → α) : Nat → α :=
  fun k => if h : offset ≤ k ∧ k < offset + 4 then qq ⟨k - offset, by omega⟩ else tt_qt k

/-- Assignment `tt_qt[k] = x`. -/
def write_scalar {α : Type} (tt_qt : Nat → α) (k : Nat) (x : α) : Nat → α :=
  fun k' => if k' = k then x else tt_qt k'

/-- The function `tt2qt` of `trifocal_test.cpp`: the memory at `tt_qt` after
the call, given its contents before. -/
def tt2qt {α : Type} (rotm2quat : rotm2quat_t α) (tt : trifocal_model_t α)
    (tt_qt : Nat → α) : Nat → α :=
  let tt_qt := write_quat tt_qt 0 (rotm2quat (first9 (tt 1).transpose_data))
  let tt_qt := write_quat tt_qt 4 (rotm2quat (first9 (tt 2).transpose_data))
  (List.finRange 3).foldl (fun tt_qt i =>
    let tt_qt := write_scalar tt_qt (8 + i.val) (tt 1 i 3)
    write_scalar tt_qt (8 + 3 + i.val) (tt 2 i 3)) tt_qt

/-- The 9 scalars of a 3x3 matrix in the solver's row-major convention:
scalar `k` is entry `(k div 3, k mod 3)`. -/
def Mat3.row_major {α : Type} (A : Mat3 α) : Fin 9 → α :=
  fun k => A ⟨k.val / 3, by have h := k.isLt; omega⟩ ⟨k.val % 3, Nat.mod_lt _ (by decide)⟩

/-- The 3x3 rotation block of a camera matrix. -/
def Mat34.rotation {α : Type} (m : Mat34 α) : Mat3 α :=
  fun r c => m r c.castSucc

/-! ## `Features_Provider` (sfm_features_provider.hpp) -/

/-- The type `IndexT` of view identifiers (`uint32_t`). -/
abbrev IndexT := Nat

/-- The type `Hash_Map<K, V>`: a finite map with one value per key. -/
abbrev Hash_Map (K V : Type) := AList (fun _ : K => V)

/-- The lookup `m.find(k)`: the entry of key `k`, or `none` for `m.end()`. -/
def Hash_Map.find {K V : Type} [DecidableEq K] (m : Hash_Map K V) (k : K) : Option (K × V) :=
  (m.lookup k).map fun v => (k, v)

/-- The struct `Features_Provider`; the feature types `PointFeature` and
`SIOPointFeature` are declared elsewhere and are parameters, `PointFeatures`
and `SIOPointFeatures` being vectors of them. -/
structure Features_Provider (PointFeature SIOPointFeature : Type) where
  /-- PointFeature array per ViewId -/
  feats_per_view : Hash_Map IndexT (List PointFeature)
  /-- SIOPointFeature array per ViewId -/
  sio_feats_per_view : Hash_Map IndexT (List SIOPointFeature)

/-- The member function `Features_Provider::getFeatures`. It is a `const`
member: the provider after the call, second component of the result, is the
provider before the call. -/
def Features_Provider.getFeatures {PointFeature SIOPointFeature : Type}
    (self : Features_Provider PointFeature SIOPointFeature) (id_view : IndexT) :
    List PointFeature × Features_Provider PointFeature SIOPointFeature :=
  let emptyFeats : List PointFeature := []
  match self.feats_per_view.find id_view with
  | some it => (it.2, self)
  | none => (emptyFeats, self)

/-! ## Concrete data for the witnesses -/

/-- A 4x3 correspondence matrix: rows x, y, tangent-x, tangent-y; one column
per point. -/
def example_datum : Mat Int :=
  Mat.ofMatrix !![1, 2, 3; 4, 5, 6; 7, 8, 9; 10, 11, 12]

/-- Some initial contents for the uninitialised arrays. -/
def example_stack : Solve.Stack Int :=
  ⟨fun _ _ _ => 99, fun _ _ _ => 98, fun _ _ _ _ => 97, fun _ => 96, fun _ _ _ => 95⟩

/-- The buffers a successful attempt of `example_solve` leaves: two valid
solutions, in slots 3 and 4, with pairwise distinct entries. -/
def example_out : SolverOut Int :=
  ⟨fun slot v r c => 1000 * slot + 100 * v + 10 * r + c, fun s => s + 3, 2⟩

/-- A solver that fails twice, leaving the buffers alone, and then succeeds
with `example_out`. -/
def example_solve : minus_solve Int :=
  fun i _ _ out => if i < 2 then (false, out) else (true, example_out)

/-- A solver that never converges and leaves the buffers alone. -/
def example_fail : minus_solve Int :=
  fun _ _ _ out => (false, out)

/-- A solver that succeeds at once and reports zero valid solutions. -/
def example_zero : minus_solve Int :=
  fun _ _ _ out => (true, ⟨out.cameras, out.id_sols, 0⟩)

/-- A 3x3 determinant of the columns `i`, `j`, `k` of three rows of length 4. -/
def example_det3 (a b c : Fin 4 → ℚ) (i j k : Fin 4) : ℚ :=
  a i * (b j * c k - b k * c j) - a j * (b i * c k - b k * c i) + a k * (b i * c j - b j * c i)

/-- An exact linear triangulation for the witnesses: a vector orthogonal to
the two rows of the DLT system given by the first bearing and to the first
row given by the second bearing, computed by cofactors. -/
def example_TriangulateDLT : TriangulateDLT_t ℚ := fun P1 x1 P2 x2 =>
  let a : Fin 4 → ℚ := fun j => x1 0 * P1 2 j - x1 2 * P1 0 j
  let b : Fin 4 → ℚ := fun j => x1 1 * P1 2 j - x1 2 * P1 1 j
  let c : Fin 4 → ℚ := fun j => x2 0 * P2 2 j - x2 2 * P2 0 j
  ![example_det3 a b c 1 2 3, - example_det3 a b c 0 2 3, example_det3 a b c 0 1 3,
    - example_det3 a b c 0 1 2]

/-- A conversion to pixel units with the intrinsics `K`, for the witnesses. -/
def example_apply_intrinsics : apply_intrinsics_t ℚ := fun K x =>
  ![K 0 0 * x 0 + K 0 1 * x 1 + K 0 2, K 1 0 * x 0 + K 1 1 * x 1 + K 1 2]

/-- Some intrinsics. -/
def example_K : Fin 2 → Fin 3 → ℚ :=
  ![![2, 0, 5], ![0, 2, 7]]

/-- A model whose camera 2 has the longer translation: cameras `[I | 0]`,
`[I | (1,0,0)]` and `[I | (2,0,0)]`. -/
def example_tt : trifocal_model_t ℚ :=
  fun v r c => if r.val = c.val then 1 else if r = 0 ∧ c = 3 then (v.val : ℚ) else 0

/-- A model whose camera 1 has the longer translation: cameras `[I | 0]`,
`[I | (2,0,0)]` and `[I | (1,0,0)]`. -/
def example_tt_swapped : trifocal_model_t ℚ :=
  fun v r c =>
    if r.val = c.val then 1
    else if r = 0 ∧ c = 3 then (if v = 1 then 2 else if v = 2 then 1 else 0)
    else 0

/-- The 3D point `(2, 4, 2)` in homogeneous coordinates. -/
def example_X : Vec4 ℚ :=
  ![2, 4, 2, 1]

/-- The position array packed from three copies of `example_datum`. -/
def example_p : PointArray Int :=
  fun _ ip k => (example_datum.get k ip).getD 0

/-- The tangent array packed from three copies of `example_datum`. -/
def example_tgt : PointArray Int :=
  fun _ ip k => (example_datum.get (2 + k) ip).getD 0

/-- Other intrinsics. -/
def example_K_other : Fin 2 → Fin 3 → ℚ :=
  ![![3, 1, 0], ![0, 4, 1]]

/-- A conversion to pixel units that ignores the intrinsics. -/
def example_other_intrinsics : apply_intrinsics_t ℚ := fun _ x => x

/-- A stand-in for the quaternion conversion on integers: the quaternion of
a rotation matrix scaled by `4 w`, which needs no square root. -/
def example_rotm2quat : rotm2quat_t Int := fun rr =>
  ![1 + rr 0 + rr 4 + rr 8, rr 7 - rr 5, rr 2 - rr 6, rr 3 - rr 1]

/-- A model with pairwise distinct entries: entry `(r, c)` of camera `v` is
`100 v + 10 r + c`. -/
def example_model : trifocal_model_t Int :=
  fun v r c => 100 * v.val + 10 * r.val + c.val

/-- The model `example_model` with another camera 0. -/
def example_model_other : trifocal_model_t Int :=
  fun v r c => if v = 0 then 7 else 100 * v.val + 10 * r.val + c.val

/-- A provider with features for the views 3 and 5 only. -/
def example_provider : Features_Provider (Int × Int) Unit :=
  ⟨(AList.insert 3 [(1, 2), (3, 4)] (AList.insert 5 [(5, 6)] ∅)), ∅⟩

/-! ## Theorems about `Solve` -/

theorem finRange_three : List.finRange 3 = [0, 1, 2] := by decide

theorem Solve.convert_view_eq {α : Type} (out : SolverOut α) (s : Nat) (v : Fin io.pp.nviews)
    (m : Mat34 α) : Solve.convert_view out s v m = Solve.camera out s v := by
  funext r c
  fin_cases r <;> fin_cases c <;>
    simp +decide [Solve.convert_view, Solve.camera, finRange_three, Mat34.set]

theorem Solve.convert_eq {α : Type} [Zero α] [One α] (out : SolverOut α) (s : Nat)
    (tts : trifocal_model_t α) : Solve.convert out s tts = Solve.model out s := by
  funext v
  fin_cases v <;>
    simp +decide [Solve.convert, Solve.model, finRange_three, trifocal_model_t.set,
      Solve.convert_view_eq]

/-- Overwriting the first `k` elements of a list one after the other. -/
theorem foldl_modify_const_getElem? {β : Type} (g : Nat → β) (k : Nat) (l : List β) (i : Nat) :
    ((List.range k).foldl (fun l s => l.modify (fun _ => g s) s) l)[i]? =
      if i < k then l[i]?.map (fun _ => g i) else l[i]? := by
  induction k with
  | zero => simp
  | succ k ih =>
    rw [List.range_succ, List.foldl_append]
    simp only [List.foldl_cons, List.foldl_nil, List.getElem?_modify, ih]
    by_cases h1 : k = i
    · subst h1; simp
    · by_cases h2 : i < k
      · have h3 : i < k + 1 := by omega
        simp [h1, h2, h3]
      · have h3 : ¬ i < k + 1 := by omega
        simp [h1, h2, h3]

theorem Solve.resize_length {α : Type} (tt : List (trifocal_model_t α)) (n : Nat)
    (fresh : trifocal_model_t α) : (Solve.resize tt n fresh).length = n := by
  simp only [Solve.resize, List.length_append, List.length_take, List.length_replicate]
  omega

/-- The conversion loop overwrites every element of a vector of size
`nsols_final`, whatever it held. -/
theorem Solve.unpack_eq {α : Type} [Zero α] [One α] (out : SolverOut α)
    (tt : List (trifocal_model_t α)) (h : tt.length = out.nsols_final) :
    Solve.unpack out tt = (List.range out.nsols_final).map (Solve.model out) := by
  apply List.ext_getElem?
  intro i
  have hc : (fun (tt : List (trifocal_model_t α)) s => tt.modify (Solve.convert out s) s) =
      fun tt s => tt.modify (fun _ => Solve.model out s) s := by
    funext tt s
    congr 1
    funext tts
    exact Solve.convert_eq out s tts
  rw [Solve.unpack, hc, foldl_modify_const_getElem?]
  by_cases hi : i < out.nsols_final
  · have hi2 : i < tt.length := by omega
    simp [hi, List.getElem?_eq_getElem hi2, List.getElem?_range hi]
  · have hi2 : tt.length ≤ i := by omega
    have hi3 : (List.range out.nsols_final).length ≤ i := by simp; omega
    simp [hi, List.getElem?_eq_none hi2, List.getElem?_eq_none hi3]


theorem Mat.get_eq_some {α : Type} (m : Mat α) (r c : Nat) (hr : r < m.rows) (hc : c < m.cols) :
    m.get r c = some (m.coeff ⟨r, hr⟩ ⟨c, hc⟩) := by
  simp [Mat.get, hr, hc]

/-- The packing loop, when every element it reads exists: each entry of both
arrays is overwritten with the element read. -/
theorem Solve.pack_eq {α : Type} (datum_0 datum_1 datum_2 : Mat α) (p tgt : PointArray α)
    (x0 x1 x2 : Nat → Nat → α)
    (h0 : ∀ r c, r < 4 → c < 3 → datum_0.get r c = some (x0 r c))
    (h1 : ∀ r c, r < 4 → c < 3 → datum_1.get r c = some (x1 r c))
    (h2 : ∀ r c, r < 4 → c < 3 → datum_2.get r c = some (x2 r c)) :
    Solve.pack datum_0 datum_1 datum_2 p tgt =
      some ((fun v ip k => (if v = 0 then x0 else if v = 1 then x1 else x2) k.val ip.val :
              PointArray α),
            (fun v ip k => (if v = 0 then x0 else if v = 1 then x1 else x2) (2 + k.val) ip.val :
              PointArray α)) := by
  simp +decide only [Solve.pack, Solve.pack_point, finRange_three, List.foldlM, Fin.val_zero,
    Fin.val_one, Fin.val_two, h0, h1, h2, Option.some_bind, Option.pure_def, Option.bind_eq_bind,
    Nat.ofNat_pos, Nat.one_lt_ofNat, Nat.lt_add_one, Option.some.injEq, Prod.mk.injEq]
  constructor
  · funext v ip k
    fin_cases v <;> fin_cases ip <;> fin_cases k <;> simp +decide [PointArray.set]
  · funext v ip k
    fin_cases v <;> fin_cases ip <;> fin_cases k <;> simp +decide [PointArray.set]


/-- The retry loop entered at attempt `i` with the buffers that `i` invocations
left: either an attempt `j` among the next `tries` succeeds after failures
only, and the loop stops there, or all of them fail. -/
theorem Solve.retry_spec {α : Type} (solve : minus_solve α) (p tgt : PointArray α)
    (out : SolverOut α) (tries i : Nat) :
    let ok := Solve.succeeds solve p tgt out
    let r := Solve.retry solve p tgt tries i (Solve.buffers_after solve p tgt out i)
    (∃ j, i ≤ j ∧ j < i + tries ∧ ok j = true ∧ (∀ j', i ≤ j' → j' < j → ok j' = false) ∧
        r = (Solve.buffers_after solve p tgt out (j + 1),
             (List.range' i (j + 1 - i)).map (fun a => ⟨a, p, tgt⟩),
             List.replicate (j - i) Solve.failure_message)) ∨
    ((∀ j', i ≤ j' → j' < i + tries → ok j' = false) ∧
        r = (Solve.buffers_after solve p tgt out (i + tries),
             (List.range' i tries).map (fun a => ⟨a, p, tgt⟩),
             List.replicate tries Solve.failure_message)) := by
  induction tries generalizing i with
  | zero =>
    right
    refine ⟨fun j' h1 h2 => by omega, ?_⟩
    simp [Solve.retry]
  | succ n ih =>
    intro ok r
    by_cases hok : ok i = true
    · left
      refine ⟨i, le_refl i, by omega, hok, fun j' h1 h2 => by omega, ?_⟩
      have hs : (solve i p tgt (Solve.buffers_after solve p tgt out i)).1 = true := hok
      simp [r, Solve.retry, hs, Solve.buffers_after]
    · have hs : (solve i p tgt (Solve.buffers_after solve p tgt out i)).1 = false := by
        simpa [ok, Solve.succeeds] using hok
      have hr : r = ((Solve.retry solve p tgt n (i + 1)
            (Solve.buffers_after solve p tgt out (i + 1))).1,
          ⟨i, p, tgt⟩ :: (Solve.retry solve p tgt n (i + 1)
            (Solve.buffers_after solve p tgt out (i + 1))).2.1,
          Solve.failure_message :: (Solve.retry solve p tgt n (i + 1)
            (Solve.buffers_after solve p tgt out (i + 1))).2.2) := by
        simp [r, Solve.retry, hs, Solve.buffers_after]
      have hfalse : ok i = false := by simpa using hok
      rcases ih (i + 1) with ⟨j, h1, h2, h3, h4, h5⟩ | ⟨h4, h5⟩
      · left
        refine ⟨j, by omega, by omega, h3, ?_, ?_⟩
        · intro j' g1 g2
          by_cases e : j' = i
          · subst e; exact hfalse
          · exact h4 j' (by omega) g2
        · rw [hr, h5]
          have e1 : j + 1 - i = (j + 1 - (i + 1)) + 1 := by omega
          have e2 : j - i = (j - (i + 1)) + 1 := by omega
          rw [e1, e2, List.range'_succ, List.replicate_succ]
          simp
      · right
        refine ⟨?_, ?_⟩
        · intro j' g1 g2
          by_cases e : j' = i
          · subst e; exact hfalse
          · exact h4 j' (by omega) (by omega)
        · rw [hr, h5, List.range'_succ, List.replicate_succ]
          simp [Nat.add_assoc, Nat.add_comm 1 n]

theorem find?_range_first (ok : Nat → Bool) (n j : Nat) (hj : j < n) (h1 : ok j = true)
    (h2 : ∀ j', j' < j → ok j' = false) : (List.range n).find? ok = some j := by
  induction n with
  | zero => omega
  | succ n ih =>
    rw [List.range_succ, List.find?_append]
    by_cases h : j < n
    · simp [ih h]
    · have e : j = n := by omega
      subst e
      have hn : (List.range j).find? ok = none := by
        rw [List.find?_eq_none]
        intro x hx
        simp [h2 x (List.mem_range.mp hx)]
      simp [hn, h1]

theorem find?_range_none (ok : Nat → Bool) (n : Nat) (h : ∀ j', j' < n → ok j' = false) :
    (List.range n).find? ok = none := by
  rw [List.find?_eq_none]
  intro x hx
  simp [h x (List.mem_range.mp hx)]

theorem Solve.invocations_first (ok : Nat → Bool) (n j : Nat) (hj : j < n) (h1 : ok j = true)
    (h2 : ∀ j', j' < j → ok j' = false) : Solve.invocations ok n = j + 1 := by
  simp [Solve.invocations, find?_range_first ok n j hj h1 h2]

theorem Solve.invocations_none (ok : Nat → Bool) (n : Nat) (h : ∀ j', j' < n → ok j' = false) :
    Solve.invocations ok n = n := by
  simp [Solve.invocations, find?_range_none ok n h]

/-- Outcome of `Solve` once the packing has produced `p` and `tgt`, when attempt
`j` is the first to succeed. -/
theorem Solve.run_success {α : Type} [Zero α] [One α] (solve : minus_solve α)
    (stack : Solve.Stack α) (datum_0 datum_1 datum_2 : Mat α)
    (trifocal_tensor : List (trifocal_model_t α)) (p tgt : PointArray α)
    (hp : Solve.pack datum_0 datum_1 datum_2 stack.p stack.tgt = some (p, tgt))
    (j : Nat) (hj : j < max_solve_tries)
    (h1 : Solve.succeeds solve p tgt (Solve.initial stack) j = true)
    (h2 : ∀ j', j' < j → Solve.succeeds solve p tgt (Solve.initial stack) j' = false) :
    Solve solve stack datum_0 datum_1 datum_2 trifocal_tensor =
      some ⟨Solve.models (Solve.buffers_after solve p tgt (Solve.initial stack) (j + 1)),
        (List.range (j + 1)).map (fun a => ⟨a, p, tgt⟩),
        List.replicate j Solve.failure_message⟩ := by
  have hr := Solve.retry_spec solve p tgt (Solve.initial stack) max_solve_tries 0
  have key : Solve.retry solve p tgt max_solve_tries 0 (Solve.initial stack) =
      (Solve.buffers_after solve p tgt (Solve.initial stack) (j + 1),
        (List.range' 0 (j + 1)).map (fun a => ⟨a, p, tgt⟩),
        List.replicate j Solve.failure_message) := by
    rcases hr with ⟨j0, -, -, g3, g4, g5⟩ | ⟨g4, -⟩
    · have e : j0 = j := by
        rcases Nat.lt_trichotomy j0 j with h | h | h
        · rw [h2 j0 h] at g3; cases g3
        · exact h
        · rw [g4 j (Nat.zero_le j) h] at h1; cases h1
      subst e
      rw [Nat.sub_zero, Nat.sub_zero] at g5
      exact g5
    · rw [g4 j (Nat.zero_le j) (by omega)] at h1; cases h1
  simp only [Solve, hp, Option.bind_eq_bind, Option.some_bind, Option.pure_def]
  rw [show Solve.initial stack = ⟨stack.cameras, stack.id_sols, 0⟩ from rfl] at key
  rw [key, Solve.unpack_eq _ _ (Solve.resize_length _ _ _)]
  simp [Solve.models, Solve.initial, List.range_eq_range']

/-- Outcome of `Solve` once the packing has produced `p` and `tgt`, when all
attempts fail. -/
theorem Solve.run_failure {α : Type} [Zero α] [One α] (solve : minus_solve α)
    (stack : Solve.Stack α) (datum_0 datum_1 datum_2 : Mat α)
    (trifocal_tensor : List (trifocal_model_t α)) (p tgt : PointArray α)
    (hp : Solve.pack datum_0 datum_1 datum_2 stack.p stack.tgt = some (p, tgt))
    (h : ∀ j', j' < max_solve_tries →
      Solve.succeeds solve p tgt (Solve.initial stack) j' = false) :
    Solve solve stack datum_0 datum_1 datum_2 trifocal_tensor =
      some ⟨Solve.models (Solve.buffers_after solve p tgt (Solve.initial stack) max_solve_tries),
        (List.range max_solve_tries).map (fun a => ⟨a, p, tgt⟩),
        List.replicate max_solve_tries Solve.failure_message⟩ := by
  have hr := Solve.retry_spec solve p tgt (Solve.initial stack) max_solve_tries 0
  have key : Solve.retry solve p tgt max_solve_tries 0 (Solve.initial stack) =
      (Solve.buffers_after solve p tgt (Solve.initial stack) max_solve_tries,
        (List.range' 0 max_solve_tries).map (fun a => ⟨a, p, tgt⟩),
        List.replicate max_solve_tries Solve.failure_message) := by
    rcases hr with ⟨j0, -, g2, g3, -, -⟩ | ⟨-, g5⟩
    · rw [h j0 (by omega)] at g3; cases g3
    · rw [Nat.zero_add] at g5
      exact g5
  simp only [Solve, hp, Option.bind_eq_bind, Option.some_bind, Option.pure_def]
  rw [show Solve.initial stack = ⟨stack.cameras, stack.id_sols, 0⟩ from rfl] at key
  rw [key, Solve.unpack_eq _ _ (Solve.resize_length _ _ _)]
  simp [Solve.models, Solve.initial, List.range_eq_range']

/-- Outcome of `Solve` once the packing has produced `p` and `tgt`: the solver
is invoked `Solve.invocations` times with `p` and `tgt`, and the models are
built from the buffers as the last invocation left them. -/
theorem Solve.run_spec {α : Type} [Zero α] [One α] (solve : minus_solve α)
    (stack : Solve.Stack α) (datum_0 datum_1 datum_2 : Mat α)
    (trifocal_tensor : List (trifocal_model_t α)) (p tgt : PointArray α)
    (hp : Solve.pack datum_0 datum_1 datum_2 stack.p stack.tgt = some (p, tgt)) :
    ∃ log, Solve solve stack datum_0 datum_1 datum_2 trifocal_tensor =
      some ⟨Solve.models (Solve.buffers_after solve p tgt (Solve.initial stack)
          (Solve.invocations (Solve.succeeds solve p tgt (Solve.initial stack)) max_solve_tries)),
        (List.range (Solve.invocations (Solve.succeeds solve p tgt (Solve.initial stack))
          max_solve_tries)).map (fun a => ⟨a, p, tgt⟩), log⟩ := by
  rcases Solve.retry_spec solve p tgt (Solve.initial stack) max_solve_tries 0 with
    ⟨j, -, g2, g3, g4, -⟩ | ⟨g4, -⟩
  · have hj : j < max_solve_tries := by omega
    have g4' : ∀ j', j' < j → Solve.succeeds solve p tgt (Solve.initial stack) j' = false :=
      fun j' h => g4 j' (Nat.zero_le j') h
    rw [Solve.invocations_first _ _ j hj g3 g4']
    exact ⟨_, Solve.run_success solve stack datum_0 datum_1 datum_2 trifocal_tensor p tgt hp j hj
      g3 g4'⟩
  · have g4' : ∀ j', j' < max_solve_tries →
        Solve.succeeds solve p tgt (Solve.initial stack) j' = false :=
      fun j' h => g4 j' (Nat.zero_le j') (by omega)
    rw [Solve.invocations_none _ _ g4']
    exact ⟨_, Solve.run_failure solve stack datum_0 datum_1 datum_2 trifocal_tensor p tgt hp g4'⟩

/-- On readable matrices the packing loop succeeds, and the arrays it produces
hold the elements read, whatever the arrays held before; matrices that agree
with these on rows 0..3 of columns 0..2 are packed to the same arrays. -/
theorem Solve.pack_readable {α : Type} (datum_0 datum_1 datum_2 : Mat α)
    (h0 : Solve.readable datum_0) (h1 : Solve.readable datum_1) (h2 : Solve.readable datum_2)
    (junk : α) :
    ∃ p tgt, (∀ p' tgt', Solve.pack datum_0 datum_1 datum_2 p' tgt' = some (p, tgt)) ∧
      (∀ (ip : Fin io.pp.npoints) (k : Fin io.ncoords2d),
        datum_0.get k ip = some (p 0 ip k) ∧ datum_0.get (2 + k) ip = some (tgt 0 ip k) ∧
        datum_1.get k ip = some (p 1 ip k) ∧ datum_1.get (2 + k) ip = some (tgt 1 ip k) ∧
        datum_2.get k ip = some (p 2 ip k) ∧ datum_2.get (2 + k) ip = some (tgt 2 ip k)) ∧
      ∀ other_0 other_1 other_2 : Mat α,
        (∀ r c, r < 4 → c < 3 → other_0.get r c = datum_0.get r c) →
        (∀ r c, r < 4 → c < 3 → other_1.get r c = datum_1.get r c) →
        (∀ r c, r < 4 → c < 3 → other_2.get r c = datum_2.get r c) →
        ∀ p' tgt', Solve.pack other_0 other_1 other_2 p' tgt' = some (p, tgt) := by
  have key : ∀ (d : Mat α), Solve.readable d → ∀ r c, r < 4 → c < 3 →
      d.get r c = some ((d.get r c).getD junk) := by
    intro d hd r c hr hc
    rw [Mat.get_eq_some d r c (by have := hd.1; omega) (by have := hd.2; omega)]
    rfl
  refine ⟨_, _, fun p' tgt' => Solve.pack_eq datum_0 datum_1 datum_2 p' tgt' _ _ _
    (key datum_0 h0) (key datum_1 h1) (key datum_2 h2), ?_, ?_⟩
  · intro ip k
    have hk : k.val < 2 := k.isLt
    have hip : ip.val < 3 := ip.isLt
    refine ⟨?_, ?_, ?_, ?_, ?_, ?_⟩ <;> simp +decide <;>
      first
        | exact key _ h0 _ _ (by omega) hip
        | exact key _ h1 _ _ (by omega) hip
        | exact key _ h2 _ _ (by omega) hip
  · intro other_0 other_1 other_2 g0 g1 g2 p' tgt'
    exact Solve.pack_eq other_0 other_1 other_2 p' tgt' _ _ _
      (fun r c hr hc => (g0 r c hr hc).trans (key datum_0 h0 r c hr hc))
      (fun r c hr hc => (g1 r c hr hc).trans (key datum_1 h1 r c hr hc))
      (fun r c hr hc => (g2 r c hr hc).trans (key datum_2 h2 r c hr hc))

theorem Solve.models_length {α : Type} [Zero α] [One α] (out : SolverOut α) :
    (Solve.models out).length = out.nsols_final := by
  simp [Solve.models]

theorem Solve.models_getElem {α : Type} [Zero α] [One α] (out : SolverOut α) (s : Nat)
    (hs : s < (Solve.models out).length) : (Solve.models out)[s] = Solve.model out s := by
  simp [Solve.models]

theorem Solve.camera_rotation {α : Type} (out : SolverOut α) (s : Nat) (v : Fin io.pp.nviews)
    (r c : Fin 3) :
    Solve.camera out s v r c.castSucc = out.cameras (out.id_sols s) (Solve.rel v) r.castSucc c := by
  have hc : (c.castSucc : Fin 4).val < 3 := c.isLt
  simp [Solve.camera, hc]

theorem Solve.camera_translation {α : Type} (out : SolverOut α) (s : Nat)
    (v : Fin io.pp.nviews) (r : Fin 3) :
    Solve.camera out s v r 3 = out.cameras (out.id_sols s) (Solve.rel v) 3 r := by
  have hc : ¬ ((3 : Fin 4).val < 3) := by decide
  simp only [Solve.camera, hc, dite_false]

theorem example_datum_readable : Solve.readable example_datum :=
  ⟨by decide, by decide⟩

/-- C1: on every input that `Solve` can pack, and for every behaviour of the
external solver, `Solve` returns, and camera 0 of every model of the returned
vector is the identity camera `[I | 0]`: entry `(r, c)` is 1 when `r = c` and
0 otherwise, the translation column `c = 3` included. -/
theorem C1_camera0_identity {α : Type} [Zero α] [One α] (solve : minus_solve α)
    (stack : Solve.Stack α) (datum_0 datum_1 datum_2 : Mat α)
    (trifocal_tensor : List (trifocal_model_t α))
    (h0 : Solve.readable datum_0) (h1 : Solve.readable datum_1) (h2 : Solve.readable datum_2) :
    ∃ run, Solve solve stack datum_0 datum_1 datum_2 trifocal_tensor = some run ∧
      ∀ (s : Nat) (hs : s < run.trifocal_tensor.length) (r : Fin 3) (c : Fin 4),
        run.trifocal_tensor[s] 0 r c = if r.val = c.val then 1 else 0 := by
  obtain ⟨p, tgt, hp, -, -⟩ :=
    Solve.pack_readable datum_0 datum_1 datum_2 h0 h1 h2 (stack.p 0 0 0)
  obtain ⟨log, hrun⟩ := Solve.run_spec solve stack datum_0 datum_1 datum_2 trifocal_tensor p tgt
    (hp stack.p stack.tgt)
  refine ⟨_, hrun, ?_⟩
  intro s hs r c
  simp only [Solve.models_getElem]
  simp [Solve.model, Mat34.Identity]

/-- C1 at a concrete input: a solver that succeeds at its third attempt with
two solutions. -/
theorem C1_camera0_identity_witness :
    ∃ run, Solve example_solve example_stack example_datum example_datum example_datum [] =
        some run ∧
      ∀ (s : Nat) (hs : s < run.trifocal_tensor.length) (r : Fin 3) (c : Fin 4),
        run.trifocal_tensor[s] 0 r c = if r.val = c.val then 1 else 0 :=
  C1_camera0_identity example_solve example_stack example_datum example_datum example_datum []
    example_datum_readable example_datum_readable example_datum_readable

theorem example_pack (p tgt : PointArray Int) :
    Solve.pack example_datum example_datum example_datum p tgt =
      some (example_p, example_tgt) := by
  have key : ∀ r c, r < 4 → c < 3 →
      example_datum.get r c = some ((example_datum.get r c).getD 0) := by
    intro r c hr hc
    rw [Mat.get_eq_some example_datum r c hr hc]
    rfl
  rw [Solve.pack_eq example_datum example_datum example_datum p tgt _ _ _ key key key]
  simp only [Option.some.injEq, Prod.mk.injEq]
  constructor <;> funext v ip k <;> simp [example_p, example_tgt]

theorem example_solve_succeeds (p tgt : PointArray Int) (out : SolverOut Int) (j : Nat) :
    Solve.succeeds example_solve p tgt out j = decide (2 ≤ j) := by
  by_cases h : j < 2 <;> simp [Solve.succeeds, example_solve, h]
  omega

/-- C2 (as stated) fails: with the solver output `example_out`, whose slot 3
holds the first valid solution, `Solve` stores in entry `(0, 1)` of camera 1
of model 0 the value `cameras[3][0][0][1] = 3001`, whereas the claim requires
the transposed entry `cameras[3][0][1][0] = 3010`. -/
theorem C2_rotation_counterexample :
    (Solve example_solve example_stack example_datum example_datum example_datum []).map
        (fun run => run.trifocal_tensor.map (fun m => m 1 0 1)) = some [3001, 4001] ∧
      example_out.cameras (example_out.id_sols 0) (Solve.rel 1) 0 1 = 3001 ∧
      example_out.cameras (example_out.id_sols 0) (Solve.rel 1) 1 0 = 3010 := by
  decide

/-- C2 (amended): on every input that `Solve` can pack it returns, and for
every returned model `s` and every view `v` in {1, 2} the 3x3 part of camera
`v` is the solver's rotation block copied entry by entry with the same
indices: `model[s][v](r, c) = cameras[id_sols[s]][v-1][r][c]` for `r, c` in
0..2, the buffers being those the last invocation of the solver left. -/
theorem C2_rotation_copied {α : Type} [Zero α] [One α] (solve : minus_solve α)
    (stack : Solve.Stack α) (datum_0 datum_1 datum_2 : Mat α)
    (trifocal_tensor : List (trifocal_model_t α))
    (h0 : Solve.readable datum_0) (h1 : Solve.readable datum_1) (h2 : Solve.readable datum_2) :
    ∃ run p tgt, Solve.pack datum_0 datum_1 datum_2 stack.p stack.tgt = some (p, tgt) ∧
      Solve solve stack datum_0 datum_1 datum_2 trifocal_tensor = some run ∧
      ∀ out, out = Solve.buffers_after solve p tgt (Solve.initial stack) run.calls.length →
        run.trifocal_tensor.length = out.nsols_final ∧
        ∀ (s : Nat) (hs : s < run.trifocal_tensor.length) (v : Fin 3), v ≠ 0 →
          ∀ r c : Fin 3, run.trifocal_tensor[s] v r c.castSucc =
            out.cameras (out.id_sols s) (Solve.rel v) r.castSucc c := by
  obtain ⟨p, tgt, hp, -, -⟩ :=
    Solve.pack_readable datum_0 datum_1 datum_2 h0 h1 h2 (stack.p 0 0 0)
  obtain ⟨log, hrun⟩ := Solve.run_spec solve stack datum_0 datum_1 datum_2 trifocal_tensor p tgt
    (hp stack.p stack.tgt)
  refine ⟨_, p, tgt, hp _ _, hrun, ?_⟩
  intro out hout
  simp only [List.length_map, List.length_range] at hout
  subst hout
  refine ⟨Solve.models_length _, ?_⟩
  intro s hs v hv r c
  simp only [Solve.models_getElem]
  simp [Solve.model, hv, Solve.camera_rotation]

/-- C2 (amended) at a concrete input. -/
theorem C2_rotation_copied_witness :
    ∃ run p tgt, Solve.pack example_datum example_datum example_datum example_stack.p
        example_stack.tgt = some (p, tgt) ∧
      Solve example_solve example_stack example_datum example_datum example_datum [] =
        some run ∧
      ∀ out, out = Solve.buffers_after example_solve p tgt (Solve.initial example_stack)
          run.calls.length →
        run.trifocal_tensor.length = out.nsols_final ∧
        ∀ (s : Nat) (hs : s < run.trifocal_tensor.length) (v : Fin 3), v ≠ 0 →
          ∀ r c : Fin 3, run.trifocal_tensor[s] v r c.castSucc =
            out.cameras (out.id_sols s) (Solve.rel v) r.castSucc c :=
  C2_rotation_copied example_solve example_stack example_datum example_datum example_datum []
    example_datum_readable example_datum_readable example_datum_readable

/-- C3: when attempt `j` of the external solver is the first to succeed,
leaving the buffers `out` with count `n = out.nsols_final`, `Solve` returns
exactly `n` models, model `s` being built from slot `id_sols[s]`: its
translation entries are `model[s][v](r, 3) = cameras[id_sols[s]][v-1][3][r]`
for `v` in {1, 2}; and every entry of every returned camera is written: the
result does not depend on what `*trifocal_tensor` held before the call nor on
the contents of the elements `resize` appended. -/
theorem C3_models_from_slots {α : Type} [Zero α] [One α] (solve : minus_solve α)
    (stack : Solve.Stack α) (datum_0 datum_1 datum_2 : Mat α)
    (trifocal_tensor : List (trifocal_model_t α)) (p tgt : PointArray α)
    (hp : Solve.pack datum_0 datum_1 datum_2 stack.p stack.tgt = some (p, tgt))
    (j : Nat) (hj : j < max_solve_tries)
    (hok : Solve.succeeds solve p tgt (Solve.initial stack) j = true)
    (hfirst : ∀ j', j' < j → Solve.succeeds solve p tgt (Solve.initial stack) j' = false) :
    ∃ run out, out = Solve.buffers_after solve p tgt (Solve.initial stack) (j + 1) ∧
      Solve solve stack datum_0 datum_1 datum_2 trifocal_tensor = some run ∧
      run.trifocal_tensor.length = out.nsols_final ∧
      (∀ (s : Nat) (hs : s < run.trifocal_tensor.length) (v : Fin 3), v ≠ 0 →
        ∀ r : Fin 3, run.trifocal_tensor[s] v r 3 =
          out.cameras (out.id_sols s) (Solve.rel v) 3 r) ∧
      ∀ (previous : List (trifocal_model_t α)) (fresh : trifocal_model_t α),
        Solve solve ⟨stack.p, stack.tgt, stack.cameras, stack.id_sols, fresh⟩
          datum_0 datum_1 datum_2 previous = some run := by
  have hrun := Solve.run_success solve stack datum_0 datum_1 datum_2 trifocal_tensor p tgt hp j hj
    hok hfirst
  refine ⟨_, _, rfl, hrun, Solve.models_length _, ?_, ?_⟩
  · intro s hs v hv r
    simp only [Solve.models_getElem]
    simp [Solve.model, hv, Solve.camera_translation]
  · intro previous fresh
    exact Solve.run_success solve ⟨stack.p, stack.tgt, stack.cameras, stack.id_sols, fresh⟩
      datum_0 datum_1 datum_2 previous p tgt hp j hj hok hfirst

/-- C3 at a concrete input: the solver succeeds at its third attempt and
reports two valid solutions, in slots 3 and 4. -/
theorem C3_models_from_slots_witness :
    ∃ run out, out = Solve.buffers_after example_solve example_p example_tgt
        (Solve.initial example_stack) (2 + 1) ∧
      Solve example_solve example_stack example_datum example_datum example_datum [] =
        some run ∧
      run.trifocal_tensor.length = out.nsols_final ∧
      (∀ (s : Nat) (hs : s < run.trifocal_tensor.length) (v : Fin 3), v ≠ 0 →
        ∀ r : Fin 3, run.trifocal_tensor[s] v r 3 =
          out.cameras (out.id_sols s) (Solve.rel v) 3 r) ∧
      ∀ (previous : List (trifocal_model_t Int)) (fresh : trifocal_model_t Int),
        Solve example_solve ⟨example_stack.p, example_stack.tgt, example_stack.cameras,
          example_stack.id_sols, fresh⟩ example_datum example_datum example_datum previous =
            some run :=
  C3_models_from_slots example_solve example_stack example_datum example_datum example_datum []
    example_p example_tgt (example_pack _ _) 2 (by decide)
    (by rw [example_solve_succeeds]; decide)
    (fun j' h => by rw [example_solve_succeeds]; simp; omega)

theorem Solve.buffers_after_count {α : Type} (solve : minus_solve α) (p tgt : PointArray α)
    (out : SolverOut α) (n : Nat)
    (h : ∀ j, j < n → (Solve.buffers_after solve p tgt out (j + 1)).nsols_final =
      (Solve.buffers_after solve p tgt out j).nsols_final) :
    (Solve.buffers_after solve p tgt out n).nsols_final = out.nsols_final := by
  induction n with
  | zero => rfl
  | succ n ih =>
    rw [h n (Nat.lt_succ_self n)]
    exact ih (fun j hj => h j (by omega))

theorem example_fail_buffers (p tgt : PointArray Int) (out : SolverOut Int) (j : Nat) :
    Solve.buffers_after example_fail p tgt out j = out := by
  induction j with
  | zero => rfl
  | succ j ih => simp [Solve.buffers_after, example_fail, ih]

/-- C4 (as stated) fails: `Solve` hands the caller nothing but the vector.
When all 5 attempts fail (`example_fail`) the caller receives the empty
vector, and receives the same empty vector when the first attempt succeeds
with zero valid solutions (`example_zero`); so nothing computed from what the
caller receives tells the two apart. -/
theorem C4_no_failure_signal_counterexample :
    (∀ j, j < max_solve_tries →
        Solve.succeeds example_fail example_p example_tgt (Solve.initial example_stack) j =
          false) ∧
      Solve.succeeds example_zero example_p example_tgt (Solve.initial example_stack) 0 = true ∧
      (Solve example_fail example_stack example_datum example_datum example_datum []).map
        Solve.Run.trifocal_tensor = some [] ∧
      (Solve example_zero example_stack example_datum example_datum example_datum []).map
        Solve.Run.trifocal_tensor = some [] ∧
      ∀ signal : List (trifocal_model_t Int) → Bool,
        (Solve example_fail example_stack example_datum example_datum example_datum []).map
            (fun run => signal run.trifocal_tensor) =
          (Solve example_zero example_stack example_datum example_datum example_datum []).map
            (fun run => signal run.trifocal_tensor) := by
  have e1 : (Solve example_fail example_stack example_datum example_datum example_datum []).map
      Solve.Run.trifocal_tensor = some [] := by
    rw [Solve.run_failure example_fail example_stack _ _ _ [] example_p example_tgt
      (example_pack _ _) (fun j _ => by simp [Solve.succeeds, example_fail])]
    simp [Solve.models, example_fail_buffers, Solve.initial]
  have e2 : (Solve example_zero example_stack example_datum example_datum example_datum []).map
      Solve.Run.trifocal_tensor = some [] := by
    rw [Solve.run_success example_zero example_stack _ _ _ [] example_p example_tgt
      (example_pack _ _) 0 (by decide) (by simp [Solve.succeeds, example_zero])
      (fun j h => by omega)]
    simp [Solve.models, Solve.buffers_after, example_zero]
  refine ⟨fun j _ => by simp [Solve.succeeds, example_fail],
    by simp [Solve.succeeds, example_zero], e1, e2, ?_⟩
  intro signal
  have f1 := congrArg (Option.map signal) e1
  have f2 := congrArg (Option.map signal) e2
  simp only [Option.map_map] at f1 f2
  exact f1.trans f2.symm

/-- C4 (amended): if every one of the 5 attempts fails and leaves the solution
count untouched, `Solve` invokes the solver 5 times, writes one line per
failed attempt to `std::cerr` and returns the empty vector. It signals nothing
else: the same empty vector is returned for a solver whose first attempt
succeeds with zero valid solutions. -/
theorem C4_all_attempts_fail {α : Type} [Zero α] [One α] (solve : minus_solve α)
    (stack : Solve.Stack α) (datum_0 datum_1 datum_2 : Mat α)
    (trifocal_tensor : List (trifocal_model_t α)) (p tgt : PointArray α)
    (hp : Solve.pack datum_0 datum_1 datum_2 stack.p stack.tgt = some (p, tgt))
    (hfail : ∀ j, j < max_solve_tries →
      Solve.succeeds solve p tgt (Solve.initial stack) j = false)
    (hcount : ∀ j, j < max_solve_tries →
      (Solve.buffers_after solve p tgt (Solve.initial stack) (j + 1)).nsols_final =
        (Solve.buffers_after solve p tgt (Solve.initial stack) j).nsols_final) :
    ∃ run, Solve solve stack datum_0 datum_1 datum_2 trifocal_tensor = some run ∧
      run.trifocal_tensor = [] ∧ run.calls.length = 5 ∧
      run.cerr = List.replicate 5 Solve.failure_message ∧
      ∃ solve' run', Solve.succeeds solve' p tgt (Solve.initial stack) 0 = true ∧
        Solve solve' stack datum_0 datum_1 datum_2 trifocal_tensor = some run' ∧
        run'.trifocal_tensor = run.trifocal_tensor := by
  have hrun := Solve.run_failure solve stack datum_0 datum_1 datum_2 trifocal_tensor p tgt hp
    hfail
  have hn := Solve.buffers_after_count solve p tgt (Solve.initial stack) max_solve_tries hcount
  have hempty : Solve.models (Solve.buffers_after solve p tgt (Solve.initial stack)
      max_solve_tries) = [] := by
    have hz : (Solve.buffers_after solve p tgt (Solve.initial stack)
        max_solve_tries).nsols_final = 0 := hn
    simp [Solve.models, hz]
  refine ⟨_, hrun, hempty, by simp [max_solve_tries], rfl,
    fun _ _ _ out => (true, ⟨out.cameras, out.id_sols, 0⟩), _, rfl,
    Solve.run_success _ stack datum_0 datum_1 datum_2 trifocal_tensor p tgt hp 0 (by decide) rfl
      (fun j h => by omega), ?_⟩
  rw [hempty]
  simp [Solve.models, Solve.buffers_after]

/-- C4 (amended) at a concrete input: a solver that never converges. -/
theorem C4_all_attempts_fail_witness :
    ∃ run, Solve example_fail example_stack example_datum example_datum example_datum [] =
        some run ∧
      run.trifocal_tensor = [] ∧ run.calls.length = 5 ∧
      run.cerr = List.replicate 5 Solve.failure_message ∧
      ∃ solve' run', Solve.succeeds solve' example_p example_tgt
          (Solve.initial example_stack) 0 = true ∧
        Solve solve' example_stack example_datum example_datum example_datum [] = some run' ∧
        run'.trifocal_tensor = run.trifocal_tensor :=
  C4_all_attempts_fail example_fail example_stack example_datum example_datum example_datum []
    example_p example_tgt (example_pack _ _)
    (fun j _ => by simp [Solve.succeeds, example_fail])
    (fun j _ => by simp [example_fail_buffers])

/-- C5: on every input that `Solve` can pack and for every behaviour of the
external solver, `Solve` invokes the solver `k` times, `1 <= k <= 5`, where
`k` is the position of the first successful attempt when one of the first 5
succeeds and 5 otherwise: every attempt before the last fails, every attempt
receives the same packed arrays `p` and `tgt`, and the returned models are
converted from the buffers as the `k`-th (last) invocation left them. -/
theorem C5_retry_policy {α : Type} [Zero α] [One α] (solve : minus_solve α)
    (stack : Solve.Stack α) (datum_0 datum_1 datum_2 : Mat α)
    (trifocal_tensor : List (trifocal_model_t α))
    (h0 : Solve.readable datum_0) (h1 : Solve.readable datum_1) (h2 : Solve.readable datum_2) :
    ∃ run p tgt, Solve.pack datum_0 datum_1 datum_2 stack.p stack.tgt = some (p, tgt) ∧
      Solve solve stack datum_0 datum_1 datum_2 trifocal_tensor = some run ∧
      ∀ ok, ok = Solve.succeeds solve p tgt (Solve.initial stack) →
      ∀ k, k = run.calls.length →
        k = Solve.invocations ok max_solve_tries ∧ 1 ≤ k ∧ k ≤ 5 ∧
        run.calls = (List.range k).map (fun a => ⟨a, p, tgt⟩) ∧
        (∀ j, j + 1 < k → ok j = false) ∧
        (ok (k - 1) = true ∨ (k = 5 ∧ ∀ j, j < 5 → ok j = false)) ∧
        run.trifocal_tensor =
          Solve.models (Solve.buffers_after solve p tgt (Solve.initial stack) k) := by
  obtain ⟨p, tgt, hp, -, -⟩ :=
    Solve.pack_readable datum_0 datum_1 datum_2 h0 h1 h2 (stack.p 0 0 0)
  have hp' := hp stack.p stack.tgt
  rcases Solve.retry_spec solve p tgt (Solve.initial stack) max_solve_tries 0 with
    ⟨j, -, g2, g3, g4, -⟩ | ⟨g4, -⟩
  · have hj : j < max_solve_tries := by omega
    have g4' : ∀ j', j' < j → Solve.succeeds solve p tgt (Solve.initial stack) j' = false :=
      fun j' h => g4 j' (Nat.zero_le j') h
    refine ⟨_, p, tgt, hp', Solve.run_success solve stack datum_0 datum_1 datum_2
      trifocal_tensor p tgt hp' j hj g3 g4', ?_⟩
    intro ok hok k hk
    simp only [List.length_map, List.length_range] at hk
    subst hk hok
    have hj5 : j < 5 := hj
    refine ⟨(Solve.invocations_first _ _ j hj g3 g4').symm, by omega, by omega, rfl, ?_, ?_, rfl⟩
    · intro j' hj'
      exact g4' j' (by omega)
    · left
      simpa using g3
  · have g4' : ∀ j', j' < max_solve_tries →
        Solve.succeeds solve p tgt (Solve.initial stack) j' = false :=
      fun j' h => g4 j' (Nat.zero_le j') (by omega)
    refine ⟨_, p, tgt, hp', Solve.run_failure solve stack datum_0 datum_1 datum_2
      trifocal_tensor p tgt hp' g4', ?_⟩
    intro ok hok k hk
    simp only [List.length_map, List.length_range] at hk
    subst hk hok
    refine ⟨(Solve.invocations_none _ _ g4').symm, by decide, by decide, rfl, ?_, ?_, rfl⟩
    · intro j' hj'
      exact g4' j' (by simp only [max_solve_tries] at hj' ⊢; omega)
    · right
      exact ⟨rfl, g4'⟩

/-- C5 at a concrete input: two failures, then a success; three invocations. -/
theorem C5_retry_policy_witness :
    ∃ run p tgt, Solve.pack example_datum example_datum example_datum example_stack.p
        example_stack.tgt = some (p, tgt) ∧
      Solve example_solve example_stack example_datum example_datum example_datum [] =
        some run ∧
      ∀ ok, ok = Solve.succeeds example_solve p tgt (Solve.initial example_stack) →
      ∀ k, k = run.calls.length →
        k = Solve.invocations ok max_solve_tries ∧ 1 ≤ k ∧ k ≤ 5 ∧
        run.calls = (List.range k).map (fun a => ⟨a, p, tgt⟩) ∧
        (∀ j, j + 1 < k → ok j = false) ∧
        (ok (k - 1) = true ∨ (k = 5 ∧ ∀ j, j < 5 → ok j = false)) ∧
        run.trifocal_tensor =
          Solve.models (Solve.buffers_after example_solve p tgt (Solve.initial example_stack) k) :=
  C5_retry_policy example_solve example_stack example_datum example_datum example_datum []
    example_datum_readable example_datum_readable example_datum_readable

/-- C6: for all three 4x3 matrices `Solve` returns, it invokes the solver at
least once, and the arrays `p` and `tgt` of every invocation satisfy
`p[v][ip][k] = datum_v(k, ip)` and `tgt[v][ip][k] = datum_v(2+k, ip)` for every
view `v`, point `ip` and coordinate `k`. The packing reads nothing else: the
same arrays result from any initial contents of `p` and `tgt` and from any
matrices that agree with the inputs on rows 0..3 of columns 0..2. (The inputs
are values of the pure model and cannot be modified.) -/
theorem C6_packing {α : Type} [Zero α] [One α] (solve : minus_solve α)
    (stack : Solve.Stack α) (datum_0 datum_1 datum_2 : Mat α)
    (trifocal_tensor : List (trifocal_model_t α))
    (h0 : datum_0.rows = 4 ∧ datum_0.cols = 3) (h1 : datum_1.rows = 4 ∧ datum_1.cols = 3)
    (h2 : datum_2.rows = 4 ∧ datum_2.cols = 3) :
    ∃ run p tgt, Solve solve stack datum_0 datum_1 datum_2 trifocal_tensor = some run ∧
      run.calls ≠ [] ∧ (∀ call, call ∈ run.calls → call.p = p ∧ call.tgt = tgt) ∧
      (∀ (ip : Fin io.pp.npoints) (k : Fin io.ncoords2d),
        datum_0.get k ip = some (p 0 ip k) ∧ datum_0.get (2 + k) ip = some (tgt 0 ip k) ∧
        datum_1.get k ip = some (p 1 ip k) ∧ datum_1.get (2 + k) ip = some (tgt 1 ip k) ∧
        datum_2.get k ip = some (p 2 ip k) ∧ datum_2.get (2 + k) ip = some (tgt 2 ip k)) ∧
      ∀ other_0 other_1 other_2 : Mat α,
        (∀ r c, r < 4 → c < 3 → other_0.get r c = datum_0.get r c) →
        (∀ r c, r < 4 → c < 3 → other_1.get r c = datum_1.get r c) →
        (∀ r c, r < 4 → c < 3 → other_2.get r c = datum_2.get r c) →
        ∀ p' tgt', Solve.pack other_0 other_1 other_2 p' tgt' = some (p, tgt) := by
  have r0 : Solve.readable datum_0 := ⟨by omega, by omega⟩
  have r1 : Solve.readable datum_1 := ⟨by omega, by omega⟩
  have r2 : Solve.readable datum_2 := ⟨by omega, by omega⟩
  obtain ⟨p, tgt, hp, hget, hcongr⟩ :=
    Solve.pack_readable datum_0 datum_1 datum_2 r0 r1 r2 (stack.p 0 0 0)
  obtain ⟨log, hrun⟩ := Solve.run_spec solve stack datum_0 datum_1 datum_2 trifocal_tensor p tgt
    (hp stack.p stack.tgt)
  refine ⟨_, p, tgt, hrun, ?_, ?_, hget, hcongr⟩
  · intro hnil
    have hlen := congrArg List.length hnil
    simp only [List.length_map, List.length_range, List.length_nil] at hlen
    unfold Solve.invocations at hlen
    cases hf : (List.range max_solve_tries).find?
        (Solve.succeeds solve p tgt (Solve.initial stack)) with
    | none => rw [hf] at hlen; exact absurd hlen (by decide)
    | some j => rw [hf] at hlen; exact absurd hlen (by simp)
  · intro call hcall
    simp only [List.mem_map] at hcall
    obtain ⟨a, -, rfl⟩ := hcall
    exact ⟨rfl, rfl⟩

/-- C6 at a concrete input. -/
theorem C6_packing_witness :
    ∃ run p tgt, Solve example_solve example_stack example_datum example_datum example_datum
        [] = some run ∧
      run.calls ≠ [] ∧ (∀ call, call ∈ run.calls → call.p = p ∧ call.tgt = tgt) ∧
      (∀ (ip : Fin io.pp.npoints) (k : Fin io.ncoords2d),
        example_datum.get k ip = some (p 0 ip k) ∧
        example_datum.get (2 + k) ip = some (tgt 0 ip k) ∧
        example_datum.get k ip = some (p 1 ip k) ∧
        example_datum.get (2 + k) ip = some (tgt 1 ip k) ∧
        example_datum.get k ip = some (p 2 ip k) ∧
        example_datum.get (2 + k) ip = some (tgt 2 ip k)) ∧
      ∀ other_0 other_1 other_2 : Mat Int,
        (∀ r c, r < 4 → c < 3 → other_0.get r c = example_datum.get r c) →
        (∀ r c, r < 4 → c < 3 → other_1.get r c = example_datum.get r c) →
        (∀ r c, r < 4 → c < 3 → other_2.get r c = example_datum.get r c) →
        ∀ p' tgt', Solve.pack other_0 other_1 other_2 p' tgt' = some (p, tgt) :=
  C6_packing example_solve example_stack example_datum example_datum example_datum []
    ⟨rfl, rfl⟩ ⟨rfl, rfl⟩ ⟨rfl, rfl⟩

theorem squaredNorm_two {α : Type} [Field α] (v : Vec2 α) :
    squaredNorm v = v 0 * v 0 + v 1 * v 1 := by
  simp [squaredNorm, Matrix.dotProduct, Fin.sum_univ_two]

theorem squaredNorm_three {α : Type} [Field α] (v : Vec3 α) :
    squaredNorm v = v 0 * v 0 + v 1 * v 1 + v 2 * v 2 := by
  simp [squaredNorm, Matrix.dotProduct, Fin.sum_univ_three]

theorem Error.bearing_cons {α : Type} [One α] (x0 y0 x1 y1 x2 y2 : α) (t0 t1 t2 : Vec α) :
    Error.bearing (x0 :: y0 :: t0) (x1 :: y1 :: t1) (x2 :: y2 :: t2) =
      some (Error.bearing_matrix ![x0, y0] ![x1, y1] ![x2, y2]) := rfl

theorem Error.bearing_matrix_col {α : Type} [One α] (c0 c1 c2 : Vec2 α) (v : Fin 3) :
    col (Error.bearing_matrix c0 c1 c2) v = ![c0 0, c0 1, 1] ∧ v = 0 ∨
    col (Error.bearing_matrix c0 c1 c2) v = ![c1 0, c1 1, 1] ∧ v = 1 ∨
    col (Error.bearing_matrix c0 c1 c2) v = ![c2 0, c2 1, 1] ∧ v = 2 := by
  fin_cases v
  · left
    refine ⟨?_, rfl⟩
    funext i
    fin_cases i <;> rfl
  · right; left
    refine ⟨?_, rfl⟩
    funext i
    fin_cases i <;> rfl
  · right; right
    refine ⟨?_, rfl⟩
    funext i
    fin_cases i <;> rfl

theorem Error.bearing_matrix_col0 {α : Type} [One α] (c0 c1 c2 : Vec2 α) :
    col (Error.bearing_matrix c0 c1 c2) 0 = ![c0 0, c0 1, 1] := by
  rcases Error.bearing_matrix_col c0 c1 c2 0 with h | h | h
  · exact h.1
  · exact absurd h.2 (by decide)
  · exact absurd h.2 (by decide)

theorem Error.bearing_matrix_col1 {α : Type} [One α] (c0 c1 c2 : Vec2 α) :
    col (Error.bearing_matrix c0 c1 c2) 1 = ![c1 0, c1 1, 1] := by
  rcases Error.bearing_matrix_col c0 c1 c2 1 with h | h | h
  · exact absurd h.2 (by decide)
  · exact h.1
  · exact absurd h.2 (by decide)

theorem Error.bearing_matrix_col2 {α : Type} [One α] (c0 c1 c2 : Vec2 α) :
    col (Error.bearing_matrix c0 c1 c2) 2 = ![c2 0, c2 1, 1] := by
  rcases Error.bearing_matrix_col c0 c1 c2 2 with h | h | h
  · exact absurd h.2 (by decide)
  · exact absurd h.2 (by decide)
  · exact h.1

/-- The value of `Error` in terms of the bearing matrix, the selection and the
projection. -/
theorem Error.unfold {α : Type} [LinearOrderedField α] (TriangulateDLT : TriangulateDLT_t α)
    (apply_intrinsics : apply_intrinsics_t α) (tt : trifocal_model_t α)
    (bearing_0 bearing_1 bearing_2 pxbearing_0 pxbearing_1 pxbearing_2 : Vec α)
    (K : Fin 2 → Fin 3 → α) (bearing : Mat3 α)
    (hb : Error.bearing bearing_0 bearing_1 bearing_2 = some bearing) :
    Error TriangulateDLT apply_intrinsics tt bearing_0 bearing_1 bearing_2 pxbearing_0
        pxbearing_1 pxbearing_2 K =
      (Vec3.hnormalized (Error.projection TriangulateDLT tt bearing)).map (fun q =>
        squaredNorm (q - Vec3.head2
          (col bearing (Error.triangulate TriangulateDLT tt bearing).2))) := by
  simp only [Error, hb, Error.projection, Option.bind_eq_bind, Option.some_bind, Option.pure_def]
  cases Vec3.hnormalized ((tt (Error.triangulate TriangulateDLT tt bearing).2).mulVec
      (Error.triangulate TriangulateDLT tt bearing).1) <;> rfl

theorem squaredNorm_translation {α : Type} [Field α] (P : Mat34 α) :
    squaredNorm (col P 3) = P 0 3 ^ 2 + P 1 3 ^ 2 + P 2 3 ^ 2 := by
  rw [squaredNorm_three]
  simp only [col]
  ring

/-- The selection made by `Error`, with the squared norms written out. -/
theorem Error.triangulate_eq {α : Type} [LinearOrderedField α]
    (TriangulateDLT : TriangulateDLT_t α) (tt : trifocal_model_t α) (bearing : Mat3 α) :
    Error.triangulate TriangulateDLT tt bearing =
      if tt 1 0 3 ^ 2 + tt 1 1 3 ^ 2 + tt 1 2 3 ^ 2 > tt 2 0 3 ^ 2 + tt 2 1 3 ^ 2 + tt 2 2 3 ^ 2
      then (TriangulateDLT (tt 0) (col bearing 0) (tt 1) (col bearing 1), 2)
      else (TriangulateDLT (tt 0) (col bearing 0) (tt 2) (col bearing 2), 1) := by
  simp only [Error.triangulate, squaredNorm_translation]

theorem squaredNorm_sub_head2 {α : Type} [Field α] (q : Vec2 α) (x y : α) :
    squaredNorm (q - Vec3.head2 ![x, y, 1]) = (q 0 - x) ^ 2 + (q 1 - y) ^ 2 := by
  rw [squaredNorm_two]
  simp only [Pi.sub_apply, Vec3.head2]
  simp only [Matrix.cons_val_zero, Matrix.cons_val_one, Matrix.head_cons]
  ring

/-- Dehomogenisation does not see a non-zero scale factor. -/
theorem Vec3.hnormalized_smul {α : Type} [Field α] [DecidableEq α] (c : α) (hc : c ≠ 0)
    (q : Vec3 α) : Vec3.hnormalized (c • q) = Vec3.hnormalized q := by
  unfold Vec3.hnormalized
  simp only [Pi.smul_apply, smul_eq_mul, mul_eq_zero, hc, false_or]
  by_cases h : q 2 = 0
  · simp [h]
  · simp only [h, if_false, mul_div_mul_left _ _ hc]

theorem squaredNorm_sub_self_head2 {α : Type} [Field α] (x y : α) :
    squaredNorm ((![x, y] : Vec2 α) - Vec3.head2 ![x, y, 1]) = 0 := by
  rw [squaredNorm_sub_head2]
  simp

theorem example_triangulate (x1 y1 : ℚ) :
    Error.triangulate example_TriangulateDLT example_tt
      (Error.bearing_matrix ![1, 2] ![x1, y1] ![2, 2]) = ((-1 : ℚ) • example_X, 1) := by
  have c0 := Error.bearing_matrix_col0 (![1, 2] : Vec2 ℚ) ![x1, y1] ![2, 2]
  have c2 := Error.bearing_matrix_col2 (![1, 2] : Vec2 ℚ) ![x1, y1] ![2, 2]
  have hlt : ¬ (example_tt 1 0 3 ^ 2 + example_tt 1 1 3 ^ 2 + example_tt 1 2 3 ^ 2 >
      example_tt 2 0 3 ^ 2 + example_tt 2 1 3 ^ 2 + example_tt 2 2 3 ^ 2) := by
    simp +decide [example_tt]
  rw [Error.triangulate_eq, if_neg hlt, c0, c2]
  refine Prod.ext ?_ rfl
  funext i
  fin_cases i <;>
    simp +decide [example_tt, example_TriangulateDLT, example_det3, example_X] <;> norm_num

theorem example_triangulate_swapped (x2 y2 : ℚ) :
    Error.triangulate example_TriangulateDLT example_tt_swapped
      (Error.bearing_matrix ![1, 2] ![2, 2] ![x2, y2]) = ((-1 : ℚ) • example_X, 2) := by
  have c0 := Error.bearing_matrix_col0 (![1, 2] : Vec2 ℚ) ![2, 2] ![x2, y2]
  have c1 := Error.bearing_matrix_col1 (![1, 2] : Vec2 ℚ) ![2, 2] ![x2, y2]
  have hgt : example_tt_swapped 1 0 3 ^ 2 + example_tt_swapped 1 1 3 ^ 2 +
      example_tt_swapped 1 2 3 ^ 2 > example_tt_swapped 2 0 3 ^ 2 +
        example_tt_swapped 2 1 3 ^ 2 + example_tt_swapped 2 2 3 ^ 2 := by
    simp +decide [example_tt_swapped]
  rw [Error.triangulate_eq, if_pos hgt, c0, c1]
  refine Prod.ext ?_ rfl
  funext i
  fin_cases i <;>
    simp +decide [example_tt_swapped, example_TriangulateDLT, example_det3, example_X] <;>
    norm_num

theorem example_tt_mulVec (v : Fin 3) :
    (example_tt v).mulVec example_X = ![2 + (v.val : ℚ), 4, 2] := by
  funext i
  fin_cases i <;>
    simp +decide [example_tt, example_X, Matrix.mulVec, Matrix.dotProduct, Fin.sum_univ_four]

theorem example_tt_swapped_mulVec (v : Fin 3) :
    (example_tt_swapped v).mulVec example_X =
      ![2 + (if v = 1 then 2 else if v = 2 then 1 else 0), 4, 2] := by
  funext i
  fin_cases i <;>
    simp +decide [example_tt_swapped, example_X, Matrix.mulVec, Matrix.dotProduct,
      Fin.sum_univ_four]

theorem example_exact (v : Fin 3) :
    Vec3.hnormalized ((example_tt v).mulVec example_X) =
      some (![![1, 2], ![3 / 2, 2], ![2, 2]] v) := by
  rw [example_tt_mulVec]
  fin_cases v <;> simp [Vec3.hnormalized] <;> norm_num

theorem example_projection_third :
    Error.projection example_TriangulateDLT example_tt
      (Error.bearing_matrix ![1, 2] ![1, 2] ![2, 2]) 2 = -2 := by
  simp only [Error.projection, example_triangulate, Matrix.mulVec_smul, example_tt_mulVec]
  simp

/-- C8: `Error` compares the squared norms of the translation columns of
cameras 1 and 2. When that of camera 1 is strictly greater, the point is
triangulated from (camera 0, bearing 0) and (camera 1, bearing 1) and the
error is the squared distance, in view 2, between the reprojection and
bearing 2; otherwise (equality included) it is triangulated from (camera 0,
bearing 0) and (camera 2, bearing 2) and scored in view 1. In both cases the
scored view is neither view 0 nor a view used for triangulation. -/
theorem C8_view_selection {α : Type} [LinearOrderedField α]
    (TriangulateDLT : TriangulateDLT_t α) (apply_intrinsics : apply_intrinsics_t α)
    (tt : trifocal_model_t α) (x0 y0 x1 y1 x2 y2 : α)
    (rest_0 rest_1 rest_2 pxbearing_0 pxbearing_1 pxbearing_2 : Vec α) (K : Fin 2 → Fin 3 → α) :
    (tt 1 0 3 ^ 2 + tt 1 1 3 ^ 2 + tt 1 2 3 ^ 2 > tt 2 0 3 ^ 2 + tt 2 1 3 ^ 2 + tt 2 2 3 ^ 2 →
      Error TriangulateDLT apply_intrinsics tt (x0 :: y0 :: rest_0) (x1 :: y1 :: rest_1)
          (x2 :: y2 :: rest_2) pxbearing_0 pxbearing_1 pxbearing_2 K =
        (Vec3.hnormalized ((tt 2).mulVec
          (TriangulateDLT (tt 0) ![x0, y0, 1] (tt 1) ![x1, y1, 1]))).map
            (fun q => (q 0 - x2) ^ 2 + (q 1 - y2) ^ 2)) ∧
    (¬ tt 1 0 3 ^ 2 + tt 1 1 3 ^ 2 + tt 1 2 3 ^ 2 > tt 2 0 3 ^ 2 + tt 2 1 3 ^ 2 + tt 2 2 3 ^ 2 →
      Error TriangulateDLT apply_intrinsics tt (x0 :: y0 :: rest_0) (x1 :: y1 :: rest_1)
          (x2 :: y2 :: rest_2) pxbearing_0 pxbearing_1 pxbearing_2 K =
        (Vec3.hnormalized ((tt 1).mulVec
          (TriangulateDLT (tt 0) ![x0, y0, 1] (tt 2) ![x2, y2, 1]))).map
            (fun q => (q 0 - x1) ^ 2 + (q 1 - y1) ^ 2)) ∧
    ∃ other third_view : Fin 3, third_view ≠ 0 ∧ third_view ≠ other ∧ other ≠ 0 ∧
      Error.triangulate TriangulateDLT tt (Error.bearing_matrix ![x0, y0] ![x1, y1] ![x2, y2]) =
        (TriangulateDLT (tt 0) ![x0, y0, 1] (tt other)
          (col (Error.bearing_matrix ![x0, y0] ![x1, y1] ![x2, y2]) other), third_view) := by
  have hb := Error.bearing_cons x0 y0 x1 y1 x2 y2 rest_0 rest_1 rest_2
  have c0 := Error.bearing_matrix_col0 ![x0, y0] ![x1, y1] ![x2, y2]
  have c1 := Error.bearing_matrix_col1 ![x0, y0] ![x1, y1] ![x2, y2]
  have c2 := Error.bearing_matrix_col2 ![x0, y0] ![x1, y1] ![x2, y2]
  simp only [Matrix.cons_val_zero, Matrix.cons_val_one, Matrix.head_cons] at c0 c1 c2
  refine ⟨?_, ?_, ?_⟩
  · intro h
    rw [Error.unfold _ _ _ _ _ _ _ _ _ _ _ hb]
    simp only [Error.projection, Error.triangulate_eq, if_pos h, c0, c1, c2,
      squaredNorm_sub_head2]
  · intro h
    rw [Error.unfold _ _ _ _ _ _ _ _ _ _ _ hb]
    simp only [Error.projection, Error.triangulate_eq, if_neg h, c0, c1, c2,
      squaredNorm_sub_head2]
  · by_cases h : tt 1 0 3 ^ 2 + tt 1 1 3 ^ 2 + tt 1 2 3 ^ 2 >
        tt 2 0 3 ^ 2 + tt 2 1 3 ^ 2 + tt 2 2 3 ^ 2
    · refine ⟨1, 2, by decide, by decide, by decide, ?_⟩
      simp only [Error.triangulate_eq, if_pos h, c0]
    · refine ⟨2, 1, by decide, by decide, by decide, ?_⟩
      simp only [Error.triangulate_eq, if_neg h, c0]

/-- C8 at concrete inputs, one for each branch: with `example_tt_swapped`
camera 1 has the longer translation and view 2 is scored; with `example_tt`
camera 2 has the longer translation and view 1 is scored. -/
theorem C8_view_selection_witness :
    Error example_TriangulateDLT example_apply_intrinsics example_tt_swapped
        [1, 2, 7, 7] [2, 2, 7, 7] [1, 2, 7, 7] [] [] [] example_K =
      (Vec3.hnormalized ((example_tt_swapped 2).mulVec
        (example_TriangulateDLT (example_tt_swapped 0) ![1, 2, 1] (example_tt_swapped 1)
          ![2, 2, 1]))).map (fun q => (q 0 - 1) ^ 2 + (q 1 - 2) ^ 2) ∧
    Error example_TriangulateDLT example_apply_intrinsics example_tt
        [1, 2, 7, 7] [1, 2, 7, 7] [2, 2, 7, 7] [] [] [] example_K =
      (Vec3.hnormalized ((example_tt 1).mulVec
        (example_TriangulateDLT (example_tt 0) ![1, 2, 1] (example_tt 2)
          ![2, 2, 1]))).map (fun q => (q 0 - 1) ^ 2 + (q 1 - 2) ^ 2) :=
  ⟨(C8_view_selection example_TriangulateDLT example_apply_intrinsics example_tt_swapped
      1 2 2 2 1 2 [7, 7] [7, 7] [7, 7] [] [] [] example_K).1
      (by simp +decide [example_tt_swapped]),
    (C8_view_selection example_TriangulateDLT example_apply_intrinsics example_tt
      1 2 1 2 2 2 [7, 7] [7, 7] [7, 7] [] [] [] example_K).2.1
      (by simp +decide [example_tt])⟩

/-- C9: if the three bearings are the exact projections of a 3D point `X`
through the three cameras of the model (so `X` has non-zero depth in each
view) and the triangulation from the two selected cameras recovers `X` up to a
non-zero scale, then `Error` returns 0, a value below 0.001. The statement
needs no further assumption on the cameras; it holds in particular when
camera 0 is `[I | 0]`. -/
theorem C9_exact_model_zero_error {α : Type} [LinearOrderedField α]
    (TriangulateDLT : TriangulateDLT_t α) (apply_intrinsics : apply_intrinsics_t α)
    (tt : trifocal_model_t α) (X : Vec4 α) (x0 y0 x1 y1 x2 y2 : α)
    (rest_0 rest_1 rest_2 pxbearing_0 pxbearing_1 pxbearing_2 : Vec α) (K : Fin 2 → Fin 3 → α)
    (hexact : ∀ v : Fin 3, Vec3.hnormalized ((tt v).mulVec X) =
      some (![![x0, y0], ![x1, y1], ![x2, y2]] v))
    (htri : ∃ c : α, c ≠ 0 ∧
      (Error.triangulate TriangulateDLT tt
        (Error.bearing_matrix ![x0, y0] ![x1, y1] ![x2, y2])).1 = c • X) :
    Error TriangulateDLT apply_intrinsics tt (x0 :: y0 :: rest_0) (x1 :: y1 :: rest_1)
        (x2 :: y2 :: rest_2) pxbearing_0 pxbearing_1 pxbearing_2 K = some 0 ∧
      (0 : α) < 1 / 1000 := by
  refine ⟨?_, by norm_num⟩
  obtain ⟨c, hc, hX⟩ := htri
  have h1 : Vec3.hnormalized ((tt 1).mulVec X) = some ![x1, y1] := hexact 1
  have h2 : Vec3.hnormalized ((tt 2).mulVec X) = some ![x2, y2] := hexact 2
  have hb := Error.bearing_cons x0 y0 x1 y1 x2 y2 rest_0 rest_1 rest_2
  have c1 := Error.bearing_matrix_col1 ![x0, y0] ![x1, y1] ![x2, y2]
  have c2 := Error.bearing_matrix_col2 ![x0, y0] ![x1, y1] ![x2, y2]
  simp only [Matrix.cons_val_zero, Matrix.cons_val_one, Matrix.head_cons] at c1 c2
  rw [Error.unfold _ _ _ _ _ _ _ _ _ _ _ hb]
  have hproj : Error.projection TriangulateDLT tt
      (Error.bearing_matrix ![x0, y0] ![x1, y1] ![x2, y2]) =
      c • (tt (Error.triangulate TriangulateDLT tt
        (Error.bearing_matrix ![x0, y0] ![x1, y1] ![x2, y2])).2).mulVec X := by
    simp only [Error.projection, hX, Matrix.mulVec_smul]
  rw [hproj, Vec3.hnormalized_smul c hc]
  have hthird : (Error.triangulate TriangulateDLT tt
      (Error.bearing_matrix ![x0, y0] ![x1, y1] ![x2, y2])).2 = 2 ∨
      (Error.triangulate TriangulateDLT tt
        (Error.bearing_matrix ![x0, y0] ![x1, y1] ![x2, y2])).2 = 1 := by
    unfold Error.triangulate
    split
    · left; rfl
    · right; rfl
  rcases hthird with e | e
  · rw [e, h2, c2]
    simp only [Option.map_some', squaredNorm_sub_self_head2]
  · rw [e, h1, c1]
    simp only [Option.map_some', squaredNorm_sub_self_head2]

/-- C9 at a concrete input: the cameras `[I | 0]`, `[I | (1,0,0)]`,
`[I | (2,0,0)]`, the point `(2, 4, 2)` and its exact projections `(1, 2)`,
`(3/2, 2)`, `(2, 2)`; the triangulation from views 0 and 2 returns `-X`. -/
theorem C9_exact_model_zero_error_witness :
    Error example_TriangulateDLT example_apply_intrinsics example_tt
        [1, 2, 7, 7] [3 / 2, 2, 7, 7] [2, 2, 7, 7] [] [] [] example_K = some 0 ∧
      (0 : ℚ) < 1 / 1000 :=
  C9_exact_model_zero_error example_TriangulateDLT example_apply_intrinsics example_tt
    example_X 1 2 (3 / 2) 2 2 2 [7, 7] [7, 7] [7, 7] [] [] [] example_K example_exact
    ⟨-1, by norm_num, by rw [example_triangulate]⟩

/-- C10: on every input on which `Error` is defined (each bearing has its two
coordinates and the projection `q` of the triangulated point into the scored
view has a non-zero third coordinate) `Error` returns a value, that value is
the sum of the two squared coordinate differences between the reprojected
point `(q0/q2, q1/q2)` and the bearing of the scored view, and it is greater
than or equal to 0. -/
theorem C10_error_nonneg {α : Type} [LinearOrderedField α]
    (TriangulateDLT : TriangulateDLT_t α) (apply_intrinsics : apply_intrinsics_t α)
    (tt : trifocal_model_t α)
    (bearing_0 bearing_1 bearing_2 pxbearing_0 pxbearing_1 pxbearing_2 : Vec α)
    (K : Fin 2 → Fin 3 → α) (bearing : Mat3 α)
    (hb : Error.bearing bearing_0 bearing_1 bearing_2 = some bearing)
    (hq : Error.projection TriangulateDLT tt bearing 2 ≠ 0) :
    ∃ e, Error TriangulateDLT apply_intrinsics tt bearing_0 bearing_1 bearing_2 pxbearing_0
        pxbearing_1 pxbearing_2 K = some e ∧ 0 ≤ e ∧
      ∀ q third_view, q = Error.projection TriangulateDLT tt bearing →
        third_view = (Error.triangulate TriangulateDLT tt bearing).2 →
        e = (q 0 / q 2 - bearing 0 third_view) ^ 2 + (q 1 / q 2 - bearing 1 third_view) ^ 2 := by
  rw [Error.unfold _ _ _ _ _ _ _ _ _ _ _ hb]
  simp only [Vec3.hnormalized, if_neg hq, Option.map_some']
  refine ⟨_, rfl, ?_, ?_⟩
  · rw [squaredNorm_two]
    exact add_nonneg (mul_self_nonneg _) (mul_self_nonneg _)
  · intro q third_view hq' ht
    subst hq' ht
    rw [squaredNorm_two]
    simp only [Pi.sub_apply, Vec3.head2, col, Matrix.cons_val_zero, Matrix.cons_val_one,
      Matrix.head_cons]
    ring

/-- C10 at a concrete input: the bearing of view 1 is off by 1/2, the
projection has third coordinate -2, and the error is defined and
non-negative. -/
theorem C10_error_nonneg_witness :
    ∃ e, Error example_TriangulateDLT example_apply_intrinsics example_tt
        [1, 2, 7, 7] [1, 2, 7, 7] [2, 2, 7, 7] [] [] [] example_K = some e ∧ 0 ≤ e ∧
      ∀ q third_view, q = Error.projection example_TriangulateDLT example_tt
          (Error.bearing_matrix ![1, 2] ![1, 2] ![2, 2]) →
        third_view = (Error.triangulate example_TriangulateDLT example_tt
          (Error.bearing_matrix ![1, 2] ![1, 2] ![2, 2])).2 →
        e = (q 0 / q 2 - Error.bearing_matrix ![1, 2] ![1, 2] ![2, 2] 0 third_view) ^ 2 +
          (q 1 / q 2 - Error.bearing_matrix ![1, 2] ![1, 2] ![2, 2] 1 third_view) ^ 2 :=
  C10_error_nonneg example_TriangulateDLT example_apply_intrinsics example_tt
    [1, 2, 7, 7] [1, 2, 7, 7] [2, 2, 7, 7] [] [] [] example_K
    (Error.bearing_matrix ![1, 2] ![1, 2] ![2, 2]) rfl
    (by rw [example_projection_third]; norm_num)

/-- The value of `Error` as a function of the three heads of the bearings, the
model and the triangulation alone. -/
theorem Error.eq_bind {α : Type} [LinearOrderedField α] (TriangulateDLT : TriangulateDLT_t α)
    (apply_intrinsics : apply_intrinsics_t α) (tt : trifocal_model_t α)
    (bearing_0 bearing_1 bearing_2 pxbearing_0 pxbearing_1 pxbearing_2 : Vec α)
    (K : Fin 2 → Fin 3 → α) :
    Error TriangulateDLT apply_intrinsics tt bearing_0 bearing_1 bearing_2 pxbearing_0
        pxbearing_1 pxbearing_2 K =
      (Vec.head2 bearing_0).bind fun c0 => (Vec.head2 bearing_1).bind fun c1 =>
        (Vec.head2 bearing_2).bind fun c2 =>
          (Vec3.hnormalized (Error.projection TriangulateDLT tt
            (Error.bearing_matrix c0 c1 c2))).map (fun q =>
              squaredNorm (q - Vec3.head2 (col (Error.bearing_matrix c0 c1 c2)
                (Error.triangulate TriangulateDLT tt (Error.bearing_matrix c0 c1 c2)).2))) := by
  cases h0 : Vec.head2 bearing_0 with
  | none => simp [Error, Error.bearing, h0]
  | some c0 =>
    cases h1 : Vec.head2 bearing_1 with
    | none => simp [Error, Error.bearing, h0, h1]
    | some c1 =>
      cases h2 : Vec.head2 bearing_2 with
      | none => simp [Error, Error.bearing, h0, h1, h2]
      | some c2 =>
        have hb : Error.bearing bearing_0 bearing_1 bearing_2 =
            some (Error.bearing_matrix c0 c1 c2) := by
          simp [Error.bearing, h0, h1, h2]
        rw [Error.unfold _ _ _ _ _ _ _ _ _ _ _ hb]
        rfl

/-- C11: the value of `Error` depends only on the model and on the first two
coordinates of the three bearings. Two calls with the same model whose
bearings have the same heads `(x, y)` return the same result, whatever the
remaining (tangent) coordinates of the bearings, the three pixel bearings, the
intrinsics `K` and the conversion to pixel units are. -/
theorem C11_error_depends_on_positions {α : Type} [LinearOrderedField α]
    (TriangulateDLT : TriangulateDLT_t α)
    (apply_intrinsics other_intrinsics : apply_intrinsics_t α) (tt : trifocal_model_t α)
    (bearing_0 bearing_1 bearing_2 pxbearing_0 pxbearing_1 pxbearing_2 : Vec α)
    (other_0 other_1 other_2 pxother_0 pxother_1 pxother_2 : Vec α)
    (K K' : Fin 2 → Fin 3 → α)
    (h0 : Vec.head2 bearing_0 = Vec.head2 other_0)
    (h1 : Vec.head2 bearing_1 = Vec.head2 other_1)
    (h2 : Vec.head2 bearing_2 = Vec.head2 other_2) :
    Error TriangulateDLT apply_intrinsics tt bearing_0 bearing_1 bearing_2 pxbearing_0
        pxbearing_1 pxbearing_2 K =
      Error TriangulateDLT other_intrinsics tt other_0 other_1 other_2 pxother_0
        pxother_1 pxother_2 K' := by
  rw [Error.eq_bind, Error.eq_bind, h0, h1, h2]

/-- C11 at a concrete input: the two calls share the model and the positions
`(1, 2)`, `(1, 2)`, `(2, 2)` and differ in the tangent coordinates, the pixel
bearings, the intrinsics and the conversion to pixel units. -/
theorem C11_error_depends_on_positions_witness :
    Error example_TriangulateDLT example_apply_intrinsics example_tt
        [1, 2, 7, 7] [1, 2, 7, 7] [2, 2, 7, 7] [] [] [] example_K =
      Error example_TriangulateDLT example_other_intrinsics example_tt
        [1, 2, 0, 5] [1, 2] [2, 2, 9] [640, 480] [641, 480] [642, 481] example_K_other :=
  C11_error_depends_on_positions example_TriangulateDLT example_apply_intrinsics
    example_other_intrinsics example_tt [1, 2, 7, 7] [1, 2, 7, 7] [2, 2, 7, 7] [] [] []
    [1, 2, 0, 5] [1, 2] [2, 2, 9] [640, 480] [641, 480] [642, 481] example_K example_K_other
    rfl rfl rfl

/-! ## Theorems about `tt2qt` -/

/-- The column-major scalars of a camera matrix, read in the row-major
convention, are the transposed rotation block. -/
theorem Mat34.first9_transpose_data {α : Type} (m : Mat34 α) :
    first9 m.transpose_data = Mat3.row_major m.rotation.transpose := by
  funext k
  fin_cases k <;> rfl

/-- Closed form of the memory `tt2qt` leaves. -/
theorem tt2qt_eq {α : Type} (rotm2quat : rotm2quat_t α) (tt : trifocal_model_t α)
    (tt_qt : Nat → α) (k : Nat) :
    tt2qt rotm2quat tt tt_qt k =
      if h : k < 4 then rotm2quat (Mat3.row_major (tt 1).rotation.transpose) ⟨k, h⟩
      else if h : k < 8 then
        rotm2quat (Mat3.row_major (tt 2).rotation.transpose) ⟨k - 4, by omega⟩
      else if h : k < 11 then tt 1 ⟨k - 8, by omega⟩ 3
      else if h : k < 14 then tt 2 ⟨k - 11, by omega⟩ 3
      else tt_qt k := by
  simp only [tt2qt, finRange_three, List.foldl, write_scalar, write_quat,
    Mat34.first9_transpose_data]
  by_cases h1 : k < 4
  · have : k = 0 ∨ k = 1 ∨ k = 2 ∨ k = 3 := by omega
    rcases this with rfl | rfl | rfl | rfl <;> simp +decide
  · by_cases h2 : k < 8
    · have : k = 4 ∨ k = 5 ∨ k = 6 ∨ k = 7 := by omega
      rcases this with rfl | rfl | rfl | rfl <;> simp +decide
    · by_cases h3 : k < 11
      · have : k = 8 ∨ k = 9 ∨ k = 10 := by omega
        rcases this with rfl | rfl | rfl <;> simp +decide
      · by_cases h4 : k < 14
        · have : k = 11 ∨ k = 12 ∨ k = 13 := by omega
          rcases this with rfl | rfl | rfl <;> simp +decide
        · have e1 : ¬ (k = 8 + 3 + 2) := by omega
          have e2 : ¬ (k = 8 + 2) := by omega
          have e3 : ¬ (k = 8 + 3 + 1) := by omega
          have e4 : ¬ (k = 8 + 1) := by omega
          have e5 : ¬ (k = 8 + 3 + 0) := by omega
          have e6 : ¬ (k = 8 + 0) := by omega
          have e7 : ¬ (4 ≤ k ∧ k < 4 + 4) := by omega
          have e8 : ¬ (0 ≤ k ∧ k < 0 + 4) := by omega
          simp +decide [h1, h2, h3, h4, e1, e2, e3, e4, e5, e6, e7, e8]

/-- C12: for every model `tt`, `tt2qt` writes exactly the 14 scalars
`tt_qt[0..13]`, laid out as `[quat_v1(4), quat_v2(4), trans_v1(3),
trans_v2(3)]`: entries 0..3 are the quaternion of the transposed rotation block
of camera 1, entries 4..7 that of camera 2, entry `8+i` is `tt[1](i,3)` and
entry `11+i` is `tt[2](i,3)`; the memory beyond is left as it was. Camera 0
contributes nothing: models with the same cameras 1 and 2 give the same 14
scalars, whatever the memory held before. -/
theorem C12_tt2qt_layout {α : Type} (rotm2quat : rotm2quat_t α) (tt : trifocal_model_t α)
    (tt_qt : Nat → α) :
    (∀ k : Fin 4, tt2qt rotm2quat tt tt_qt k.val =
      rotm2quat (Mat3.row_major (tt 1).rotation.transpose) k) ∧
    (∀ k : Fin 4, tt2qt rotm2quat tt tt_qt (4 + k.val) =
      rotm2quat (Mat3.row_major (tt 2).rotation.transpose) k) ∧
    (∀ i : Fin 3, tt2qt rotm2quat tt tt_qt (8 + i.val) = tt 1 i 3 ∧
      tt2qt rotm2quat tt tt_qt (11 + i.val) = tt 2 i 3) ∧
    (∀ k, 14 ≤ k → tt2qt rotm2quat tt tt_qt k = tt_qt k) ∧
    ∀ (other : trifocal_model_t α) (other_qt : Nat → α), other 1 = tt 1 → other 2 = tt 2 →
      ∀ k, k < 14 → tt2qt rotm2quat other other_qt k = tt2qt rotm2quat tt tt_qt k := by
  refine ⟨?_, ?_, ?_, ?_, ?_⟩
  · intro k
    have hk : k.val < 4 := k.isLt
    rw [tt2qt_eq, dif_pos hk]
  · intro k
    have hk : k.val < 4 := k.isLt
    have h1 : ¬ (4 + k.val < 4) := by omega
    have h2 : 4 + k.val < 8 := by omega
    rw [tt2qt_eq, dif_neg h1, dif_pos h2]
    congr 1
    apply Fin.ext
    simp
  · intro i
    have hi : i.val < 3 := i.isLt
    constructor
    · have h1 : ¬ (8 + i.val < 4) := by omega
      have h2 : ¬ (8 + i.val < 8) := by omega
      have h3 : 8 + i.val < 11 := by omega
      rw [tt2qt_eq, dif_neg h1, dif_neg h2, dif_pos h3]
      congr 1
      apply Fin.ext
      simp
    · have h1 : ¬ (11 + i.val < 4) := by omega
      have h2 : ¬ (11 + i.val < 8) := by omega
      have h3 : ¬ (11 + i.val < 11) := by omega
      have h4 : 11 + i.val < 14 := by omega
      rw [tt2qt_eq, dif_neg h1, dif_neg h2, dif_neg h3, dif_pos h4]
      congr 1
      apply Fin.ext
      simp
  · intro k hk
    have h1 : ¬ (k < 4) := by omega
    have h2 : ¬ (k < 8) := by omega
    have h3 : ¬ (k < 11) := by omega
    have h4 : ¬ (k < 14) := by omega
    rw [tt2qt_eq, dif_neg h1, dif_neg h2, dif_neg h3, dif_neg h4]
  · intro other other_qt e1 e2 k hk
    rw [tt2qt_eq, tt2qt_eq, e1, e2]
    by_cases h1 : k < 4
    · simp only [h1, dite_true]
    · by_cases h2 : k < 8
      · simp only [h1, h2, dite_true, dite_false]
      · by_cases h3 : k < 11
        · simp only [h1, h2, h3, dite_true, dite_false]
        · simp only [h1, h2, h3, hk, dite_true, dite_false]

/-- C12 at a concrete input: the 14 scalars of `example_model`, and those of
a model that differs in camera 0 only. -/
theorem C12_tt2qt_layout_witness :
    (List.range 16).map (tt2qt example_rotm2quat example_model (fun _ => -1)) =
        [334, -9, 18, -9, 634, -9, 18, -9, 103, 113, 123, 203, 213, 223, -1, -1] ∧
      ∀ k, k < 14 → tt2qt example_rotm2quat example_model_other (fun _ => 0) k =
        tt2qt example_rotm2quat example_model (fun _ => -1) k :=
  ⟨by decide,
    (C12_tt2qt_layout example_rotm2quat example_model (fun _ => -1)).2.2.2.2
      example_model_other (fun _ => 0) rfl rfl⟩

/-! ## Theorems about `Features_Provider` -/

/-- C13: for every provider and every view id, `getFeatures` returns a value:
the features stored under the id in `feats_per_view` when the id is a key of
that map, the empty array when it is not; and the provider after the call is
the provider before it, so neither map is changed. -/
theorem C13_getFeatures {PointFeature SIOPointFeature : Type}
    (self : Features_Provider PointFeature SIOPointFeature) (id_view : IndexT) :
    (id_view ∈ self.feats_per_view →
      ∃ feats, (⟨id_view, feats⟩ : Sigma fun _ : IndexT => List PointFeature) ∈
          self.feats_per_view.entries ∧
        (self.getFeatures id_view).1 = feats) ∧
    (id_view ∉ self.feats_per_view → (self.getFeatures id_view).1 = []) ∧
    (self.getFeatures id_view).2 = self ∧
    (self.getFeatures id_view).2.feats_per_view = self.feats_per_view ∧
    (self.getFeatures id_view).2.sio_feats_per_view = self.sio_feats_per_view := by
  have hstate : (self.getFeatures id_view).2 = self := by
    unfold Features_Provider.getFeatures
    cases self.feats_per_view.find id_view <;> rfl
  refine ⟨?_, ?_, hstate, by rw [hstate], by rw [hstate]⟩
  · intro hmem
    obtain ⟨feats, hf⟩ := Option.isSome_iff_exists.mp (AList.lookup_isSome.mpr hmem)
    refine ⟨feats, AList.mem_lookup_iff.mp hf, ?_⟩
    simp [Features_Provider.getFeatures, Hash_Map.find, hf]
  · intro hmem
    have hf := AList.lookup_eq_none.mpr hmem
    simp [Features_Provider.getFeatures, Hash_Map.find, hf]

/-- C13 at a concrete provider: view 3 has features, view 4 has none. -/
theorem C13_getFeatures_witness :
    (∃ feats, (⟨3, feats⟩ : Sigma fun _ : IndexT => List (Int × Int)) ∈
          example_provider.feats_per_view.entries ∧
        (example_provider.getFeatures 3).1 = feats) ∧
      (example_provider.getFeatures 3).1 = [(1, 2), (3, 4)] ∧
      (example_provider.getFeatures 4).1 = [] :=
  ⟨(C13_getFeatures example_provider 3).1 (by decide), by decide,
    (C13_getFeatures example_provider 4).2.1 (by decide)⟩

end trifocal3pt
